import Mathlib

/-!
Verification development for the package `gsuite` (`calendar.go`).

The file embeds `Calendar.GetEvents`, `Calendar.CreateEvent`,
`Calendar.GetCalendarID` and `Calendar.AuthenticateClient` together with the
parts of Go's standard `time` package they call (`time.Date`, `Time.Format`,
`time.Parse`), and proves properties of these definitions.

Conventions
* Go `string` values that are scanned byte by byte (layouts, timestamps) are
  `List Char` inside the `time` model and `String` at the program level; the
  two agree on ASCII text.
* Go `int`/`int64` values are `Int`; the `uint64` "absolute" second count wraps
  explicitly through `u64`, and `int64(...)` conversions go through `i64`.
* Loops over a string whose index does not advance by one are written with a
  fuel argument; lemmas at the end of the `time` part show that the fuel given
  is never used up.
* Collaborators (file system, OAuth library, calendar service, clock) are
  fields of an environment record; every call made to them is appended to a
  trace.
* The pointers `Start` and `End` of an event, nil when the JSON of an item
  leaves the field out, are `Option` values, and reading a field through a nil
  pointer ends `GetEvents` with `Result.panic`. A response that comes with a
  nil error and the entries of its `Items` are non-nil, as the client library
  decodes them from JSON objects.
* The `time` model follows `time/format.go`, `time/time.go` and
  `time/zoneinfo.go` of the Go 1.1x releases current when `calendar.go` was
  written (the comma as fractional-second separator of later releases is not
  a layout element here).
-/

namespace Gsuite

/-! ## Machine integers -/

/-- Reduction of an integer to the range of Go's `uint64`. -/
def u64 (x : Int) : Int := x % 18446744073709551616

/-- Reduction of an integer to the range of Go's `int64` (two's complement). -/
def i64 (x : Int) : Int :=
  (x + 9223372036854775808) % 18446744073709551616 - 9223372036854775808

/-! ## Go `time`: calendar arithmetic (`time.go`) -/

def secondsPerMinute : Int := 60
def secondsPerHour : Int := 3600
def secondsPerDay : Int := 86400
def secondsPerWeek : Int := 604800
def daysPer400Years : Int := 146097
def daysPer100Years : Int := 36524
def daysPer4Years : Int := 1461

/-- The year of the zero of the absolute time scale. -/
def absoluteZeroYear : Int := -292277022399

/-- Offset `(absoluteZeroYear - internalYear) * 365.2425 * secondsPerDay`. -/
def absoluteToInternal : Int := -9223371966579724800
def internalToAbsolute : Int := 9223371966579724800

/-- Offset `(1969*365 + 1969/4 - 1969/100 + 1969/400) * secondsPerDay`. -/
def unixToInternal : Int := 62135596800
def internalToUnix : Int := -62135596800

/-- Go's `isLeap`. -/
def isLeap (year : Int) : Bool :=
  year % 4 == 0 && (year % 100 != 0 || year % 400 == 0)

/-- Go's table `daysBefore`: days in a non-leap year before month `m+1`. -/
def daysBeforeTab : List Int := [0, 31, 59, 90, 120, 151, 181, 212, 243, 273, 304, 334, 365]

/-- Indexing `daysBefore[i]`. -/
def daysBefore (i : Int) : Int := daysBeforeTab.getD i.toNat 0

/-- Go's `daysIn`. -/
def daysIn (m : Int) (year : Int) : Int :=
  if m == 2 && isLeap year then 29 else daysBefore m - daysBefore (m - 1)

/-- Go's `daysSinceEpoch`: days from the absolute epoch to January 1 of `year`. -/
def daysSinceEpoch (year : Int) : Int :=
  let y := u64 (year - absoluteZeroYear)
  let n400 := y / 400
  let y1 := y - 400 * n400
  let d1 := daysPer400Years * n400
  let n100 := y1 / 100
  let y2 := y1 - 100 * n100
  let d2 := d1 + daysPer100Years * n100
  let n4 := y2 / 4
  let y3 := y2 - 4 * n4
  let d3 := d2 + daysPer4Years * n4
  d3 + 365 * y3

/-- Date fields computed by `absDate`. -/
structure AbsDate where
  year : Int
  month : Int
  day : Int
  yday : Int
deriving DecidableEq, Repr

/-- Go's `absDate(abs, false)`: the year and the zero-based day of the year of
an absolute second count. -/
def absYearDay (abs : Int) : Int × Int :=
  let d0 := abs / secondsPerDay
  -- 400-year cycles
  let n400 := d0 / daysPer400Years
  let y1 := 400 * n400
  let d1 := d0 - daysPer400Years * n400
  -- 100-year cycles, the last one has an extra leap day
  let n100a := d1 / daysPer100Years
  let n100 := n100a - n100a / 4
  let y2 := y1 + 100 * n100
  let d2 := d1 - daysPer100Years * n100
  -- 4-year cycles
  let n4 := d2 / daysPer4Years
  let y3 := y2 + 4 * n4
  let d3 := d2 - daysPer4Years * n4
  -- years within a 4-year cycle
  let n1a := d3 / 365
  let n1 := n1a - n1a / 4
  let y4 := y3 + n1
  let d4 := d3 - 365 * n1
  (i64 (y4 + absoluteZeroYear), d4)

/-- The end of `absDate(abs, true)`: the month and the day of the month of the
zero-based day `day` of a non-leap year, from the estimate `day / 31` of the
month, which is too low by at most one. -/
def monthOfDay (day : Int) : Int × Int :=
  let month := day / 31
  let stop := daysBefore (month + 1)
  if day >= stop then (month + 2, day - stop + 1)
  else (month + 1, day - daysBefore month + 1)

/-- The second half of `absDate(abs, true)`: month and day of the month from
the year and the day of the year. -/
def monthDay (year yday : Int) : AbsDate :=
  if isLeap year && yday == 31 + 29 - 1 then
    -- leap day
    ⟨year, 2, 29, yday⟩
  else
    -- after the leap day, pretend it was not there
    let day := if isLeap year && yday > 31 + 29 - 1 then yday - 1 else yday
    ⟨year, (monthOfDay day).1, (monthOfDay day).2, yday⟩

/-- Go's `absDate(abs, true)`: the civil date of an absolute second count. -/
def absDate (abs : Int) : AbsDate :=
  monthDay (absYearDay abs).1 (absYearDay abs).2

/-- Clock fields computed by `absClock`. -/
structure AbsClock where
  hour : Int
  min : Int
  sec : Int
deriving DecidableEq, Repr

/-- Go's `absClock`. -/
def absClock (abs : Int) : AbsClock :=
  let s0 := abs % secondsPerDay
  let hour := s0 / secondsPerHour
  let s1 := s0 - hour * secondsPerHour
  let min := s1 / secondsPerMinute
  ⟨hour, min, s1 - min * secondsPerMinute⟩

/-- Go's `absWeekday` (Sunday = 0). -/
def absWeekday (abs : Int) : Int :=
  (u64 (abs + 1 * secondsPerDay) % secondsPerWeek) / secondsPerDay

/-- Go's `norm`: carry `lo` into `hi` so that `0 ≤ lo < base`. -/
def norm (hi lo base : Int) : Int × Int :=
  let (hi1, lo1) :=
    if lo < 0 then
      let n := Int.tdiv (-lo - 1) base + 1
      (hi - n, lo + n * base)
    else (hi, lo)
  if lo1 >= base then
    let n := Int.tdiv lo1 base
    (hi1 + n, lo1 - n * base)
  else (hi1, lo1)

/-! ## Go `time`: locations (`zoneinfo.go`) -/

/-- Result of `Location.lookup`: the zone in force at an instant. -/
structure ZoneInfo where
  name : String
  offset : Int
  start : Int
  stop : Int
deriving DecidableEq, Repr

/-- A `*time.Location`, represented by the two queries the `time` package
makes on it: `lookup(sec)` and `lookupName(name, sec)`. -/
structure Location where
  lookup : Int → ZoneInfo
  lookupName : String → Int → Option Int

/-- Smallest instant of a zone period (`alpha`). -/
def zoneAlpha : Int := -9223372036854775808

/-- Largest instant of a zone period (Go's end-of-time constant). -/
def zoneOmega : Int := 9223372036854775807

/-- Go's `time.UTC`. A nil location behaves as UTC as well. -/
def UTC : Location :=
  { lookup := fun _ => ⟨"UTC", 0, zoneAlpha, zoneOmega⟩
    lookupName := fun _ _ => none }

/-- Go's `time.FixedZone`. -/
def FixedZone (name : String) (offset : Int) : Location :=
  { lookup := fun _ => ⟨name, offset, zoneAlpha, zoneOmega⟩
    lookupName := fun n _ => if n = name then some offset else none }

/-! ## Go `time`: the `Time` value -/

/-- A `time.Time`: Unix seconds, nanoseconds within the second, location. -/
structure Time where
  sec : Int
  nsec : Int
  loc : Location

/-- The zero `Time{}`: January 1, year 1, 00:00:00 UTC. -/
def Time.zero : Time := ⟨internalToUnix, 0, UTC⟩

/-- Go's `Time.abs`: seconds since the absolute epoch, in the time's zone. -/
def Time.abs (t : Time) : Int :=
  u64 (t.sec + (t.loc.lookup t.sec).offset + (unixToInternal + internalToAbsolute))

/-- Go's `Time.Year`. -/
def Time.Year (t : Time) : Int := (absDate t.abs).year

/-- Go's `Time.Month`. -/
def Time.Month (t : Time) : Int := (absDate t.abs).month

/-- Go's `Time.Day`. -/
def Time.Day (t : Time) : Int := (absDate t.abs).day

/-- Go's `Time.Location`. -/
def Time.Location (t : Time) : Location := t.loc

/-- The block "compute days since the absolute epoch" of `time.Date`, for a
normalized year, month and day. -/
def dateDays (year month day : Int) : Int :=
  let d := daysSinceEpoch year
  -- add in days before this month
  let d := u64 (d + daysBefore (month - 1))
  let d := if isLeap year && month >= 3 then u64 (d + 1) else d
  -- add in days before today
  u64 (d + u64 (day - 1))

/-- The block "add in time elapsed today" of `time.Date` and the conversion of
the absolute second count to Unix seconds. -/
def dateUnix (year month day hour min sec : Int) : Int :=
  let abs := u64 (dateDays year month day * secondsPerDay)
  let abs := u64 (abs + u64 (hour * secondsPerHour + min * secondsPerMinute + sec))
  i64 (i64 abs + (absoluteToInternal + internalToUnix))

/-- The last block of `time.Date`: look for the zone offset of the expected
time `unix`, so as to adjust to UTC. The lookup expects UTC, so `unix` is tried
first, and the result is adjusted if it falls outside the zone period found. -/
def dateZone (loc : Location) (unix : Int) : Int :=
  let z := loc.lookup unix
  if z.offset != 0 then
    let utc := i64 (unix - z.offset)
    let offset :=
      if utc < z.start || utc >= z.stop then (loc.lookup utc).offset else z.offset
    i64 (unix - offset)
  else unix

/-- Go's `time.Date`. -/
def Date (year month day hour min sec nsec : Int) (loc : Location) : Time :=
  -- normalize month, overflowing into year
  let ym := norm year (month - 1) 12
  -- normalize nsec, sec, min, hour, overflowing into day
  let sn := norm sec nsec 1000000000
  let ms := norm min sn.1 60
  let hm := norm hour ms.1 60
  let dh := norm day hm.1 24
  ⟨dateZone loc (dateUnix ym.1 (ym.2 + 1) dh.1 dh.2 hm.2 ms.2), sn.2, loc⟩

/-! ## Go `time`: layout chunks (`format.go`) -/

/-- The layout elements recognised by `nextStdChunk`. The two fractional
second elements carry the number of digits after the decimal point. -/
inductive Std where
  | stdLongMonth | stdMonth | stdNumMonth | stdZeroMonth
  | stdLongWeekDay | stdWeekDay
  | stdDay | stdUnderDay | stdZeroDay | stdUnderYearDay | stdZeroYearDay
  | stdHour | stdHour12 | stdZeroHour12
  | stdMinute | stdZeroMinute | stdSecond | stdZeroSecond
  | stdLongYear | stdYear
  | stdPM | stdpm
  | stdTZ
  | stdISO8601TZ | stdISO8601SecondsTZ | stdISO8601ShortTZ
  | stdISO8601ColonTZ | stdISO8601ColonSecondsTZ
  | stdNumTZ | stdNumSecondsTz | stdNumShortTZ | stdNumColonTZ | stdNumColonSecondsTZ
  | stdFracSecond0 (digits : Nat)
  | stdFracSecond9 (digits : Nat)
deriving DecidableEq, Repr

/-- Test `layout[0:len(p)] == p` (with the length check). -/
def hasPrefix (p : String) (l : List Char) : Bool := p.data.isPrefixOf l

/-- Go's `isDigit(s, i)`. -/
def isDigit (s : List Char) (i : Nat) : Bool :=
  match s.get? i with
  | none => false
  | some c => 48 ≤ c.toNat && c.toNat ≤ 57

/-- Go's `startsWithLowerCase`. -/
def startsWithLowerCase (s : List Char) : Bool :=
  match s with
  | [] => false
  | c :: _ => 97 ≤ c.toNat && c.toNat ≤ 122

/-- Number of leading characters of `l` equal to `ch`. -/
def countRun (ch : Char) : List Char → Nat
  | [] => 0
  | c :: rest => if c = ch then countRun ch rest + 1 else 0

/-- A layout element found at the head of the remaining layout: the number of
characters that still belong to the literal prefix, the element, and the total
number of characters up to the start of the suffix. -/
structure ChunkAt where
  lit : Nat
  std : Std
  len : Nat
deriving DecidableEq, Repr

/-- Case `'J'` of `nextStdChunk`: January, Jan. -/
def stdAtJ (l : List Char) : Option ChunkAt :=
  if hasPrefix "Jan" l then
    if hasPrefix "January" l then some ⟨0, .stdLongMonth, 7⟩
    else if !startsWithLowerCase (l.drop 3) then some ⟨0, .stdMonth, 3⟩
    else none
  else none

/-- Case `'M'` of `nextStdChunk`: Monday, Mon, MST. -/
def stdAtM (l : List Char) : Option ChunkAt :=
  if hasPrefix "Mon" l then
    if hasPrefix "Monday" l then some ⟨0, .stdLongWeekDay, 6⟩
    else if !startsWithLowerCase (l.drop 3) then some ⟨0, .stdWeekDay, 3⟩
    else none
  else if hasPrefix "MST" l then some ⟨0, .stdTZ, 3⟩
  else none

/-- Case `'0'` of `nextStdChunk`: 01, 02, 03, 04, 05, 06, 002; `rest` is the
layout after the `'0'`. -/
def stdAt0 (rest : List Char) : Option ChunkAt :=
  if hasPrefix "1" rest then some ⟨0, .stdZeroMonth, 2⟩
  else if hasPrefix "2" rest then some ⟨0, .stdZeroDay, 2⟩
  else if hasPrefix "3" rest then some ⟨0, .stdZeroHour12, 2⟩
  else if hasPrefix "4" rest then some ⟨0, .stdZeroMinute, 2⟩
  else if hasPrefix "5" rest then some ⟨0, .stdZeroSecond, 2⟩
  else if hasPrefix "6" rest then some ⟨0, .stdYear, 2⟩
  else if hasPrefix "02" rest then some ⟨0, .stdZeroYearDay, 3⟩
  else none

/-- Case `'1'` of `nextStdChunk`: 15, 1. -/
def stdAt1 (rest : List Char) : Option ChunkAt :=
  if hasPrefix "5" rest then some ⟨0, .stdHour, 2⟩ else some ⟨0, .stdNumMonth, 1⟩

/-- Case `'2'` of `nextStdChunk`: 2006, 2. -/
def stdAt2 (l : List Char) : Option ChunkAt :=
  if hasPrefix "2006" l then some ⟨0, .stdLongYear, 4⟩ else some ⟨0, .stdDay, 1⟩

/-- Case `'_'` of `nextStdChunk`: _2, _2006, __2. -/
def stdAtUnder (rest : List Char) : Option ChunkAt :=
  if hasPrefix "2" rest then
    -- _2006 is really a literal _, followed by stdLongYear
    if hasPrefix "2006" rest then some ⟨1, .stdLongYear, 5⟩
    else some ⟨0, .stdUnderDay, 2⟩
  else if hasPrefix "_2" rest then some ⟨0, .stdUnderYearDay, 3⟩
  else none

/-- Case `'-'` of `nextStdChunk`: -070000, -07:00:00, -0700, -07:00, -07. -/
def stdAtMinus (l : List Char) : Option ChunkAt :=
  if hasPrefix "-070000" l then some ⟨0, .stdNumSecondsTz, 7⟩
  else if hasPrefix "-07:00:00" l then some ⟨0, .stdNumColonSecondsTZ, 9⟩
  else if hasPrefix "-0700" l then some ⟨0, .stdNumTZ, 5⟩
  else if hasPrefix "-07:00" l then some ⟨0, .stdNumColonTZ, 6⟩
  else if hasPrefix "-07" l then some ⟨0, .stdNumShortTZ, 3⟩
  else none

/-- Case `'Z'` of `nextStdChunk`: Z070000, Z07:00:00, Z0700, Z07:00, Z07. -/
def stdAtZ (l : List Char) : Option ChunkAt :=
  if hasPrefix "Z070000" l then some ⟨0, .stdISO8601SecondsTZ, 7⟩
  else if hasPrefix "Z07:00:00" l then some ⟨0, .stdISO8601ColonSecondsTZ, 9⟩
  else if hasPrefix "Z0700" l then some ⟨0, .stdISO8601TZ, 5⟩
  else if hasPrefix "Z07:00" l then some ⟨0, .stdISO8601ColonTZ, 6⟩
  else if hasPrefix "Z07" l then some ⟨0, .stdISO8601ShortTZ, 3⟩
  else none

/-- Case `'.'` of `nextStdChunk`: .000 or .999, repeated digits for fractional
seconds; `l` is the layout from the `'.'` on and `rest` the layout after it. -/
def stdAtDot (l rest : List Char) : Option ChunkAt :=
  match rest with
  | [] => none
  | ch :: _ =>
    if ch = '0' || ch = '9' then
      let j := 1 + countRun ch rest
      -- the string of digits must end here
      if !isDigit l j then
        some ⟨0, if ch = '9' then .stdFracSecond9 (j - 1) else .stdFracSecond0 (j - 1), j⟩
      else none
    else none

/-- One iteration of the scanning loop of `nextStdChunk`: the element starting
at the first character of `l`, if any. -/
def stdAt (l : List Char) : Option ChunkAt :=
  match l with
  | [] => none
  | c :: rest =>
    if c = 'J' then stdAtJ l
    else if c = 'M' then stdAtM l
    else if c = '0' then stdAt0 rest
    else if c = '1' then stdAt1 rest
    else if c = '2' then stdAt2 l
    else if c = '_' then stdAtUnder rest
    else if c = '3' then some ⟨0, .stdHour12, 1⟩
    else if c = '4' then some ⟨0, .stdMinute, 1⟩
    else if c = '5' then some ⟨0, .stdSecond, 1⟩
    else if c = 'P' then (if hasPrefix "M" rest then some ⟨0, .stdPM, 2⟩ else none)
    else if c = 'p' then (if hasPrefix "m" rest then some ⟨0, .stdpm, 2⟩ else none)
    else if c = '-' then stdAtMinus l
    else if c = 'Z' then stdAtZ l
    else if c = '.' then stdAtDot l rest
    else none

/-- Result of `nextStdChunk`: literal prefix, layout element (`none` for Go's
`std == 0`), and the rest of the layout. -/
structure Chunk where
  pfx : List Char
  std : Option Std
  suffix : List Char
deriving DecidableEq, Repr

/-- The scanning loop of `nextStdChunk`, with `acc` the characters already
passed over (in reverse). -/
def nextStdChunkFrom (acc : List Char) : List Char → Chunk
  | [] => ⟨acc.reverse, none, []⟩
  | c :: rest =>
    match stdAt (c :: rest) with
    | some k => ⟨acc.reverse ++ (c :: rest).take k.lit, some k.std, (c :: rest).drop k.len⟩
    | none => nextStdChunkFrom (c :: acc) rest

/-- Go's `nextStdChunk`: the leftmost layout element of `layout`. -/
def nextStdChunk (layout : List Char) : Chunk := nextStdChunkFrom [] layout

/-! ## Go `time`: formatting (`format.go`) -/

/-- The character of a decimal digit. -/
def digitChar (d : Nat) : Char := Char.ofNat (48 + d)

/-- The digit loop of `appendInt`, `fuel` bounding the buffer of 20 bytes. -/
def appendIntDigits : Nat → Nat → List Char → List Char
  | 0, _, acc => acc
  | fuel + 1, u, acc =>
    if u ≥ 10 then appendIntDigits fuel (u / 10) (digitChar (u % 10) :: acc)
    else digitChar u :: acc

/-- Go's `appendInt(b, x, width)`, returning the characters appended. -/
def appendInt (x : Int) (width : Nat) : List Char :=
  let digits := appendIntDigits 20 x.natAbs []
  (if x < 0 then ['-'] else []) ++ List.replicate (width - digits.length) '0' ++ digits

/-- Go's `formatNano(b, nanosec, n, trim)`, returning the characters appended. -/
def formatNano (nanosec : Nat) (n : Nat) (trim : Bool) : List Char :=
  let buf : List Char := (List.range 9).map fun i => digitChar (nanosec / 10 ^ (8 - i) % 10)
  let n := if n > 9 then 9 else n
  let n := if trim then ((buf.take n).reverse.dropWhile (· = '0')).length else n
  if trim && n == 0 then [] else '.' :: buf.take n

def longMonthNames : List String :=
  ["January", "February", "March", "April", "May", "June", "July", "August",
   "September", "October", "November", "December"]

def shortMonthNames : List String :=
  ["Jan", "Feb", "Mar", "Apr", "May", "Jun", "Jul", "Aug", "Sep", "Oct", "Nov", "Dec"]

def longDayNames : List String :=
  ["Sunday", "Monday", "Tuesday", "Wednesday", "Thursday", "Friday", "Saturday"]

def shortDayNames : List String :=
  ["Sun", "Mon", "Tue", "Wed", "Thu", "Fri", "Sat"]

/-- Characters of a numeric zone offset as `AppendFormat` writes them: sign,
hours, then (unless `short`) an optional colon and the minutes, then (when
`seconds`) an optional colon and the seconds. -/
def appendZone (offset : Int) (colon short seconds : Bool) : List Char :=
  let zone := Int.tdiv offset 60
  let absoffset := if zone < 0 then -offset else offset
  let sign := if zone < 0 then '-' else '+'
  let zone := if zone < 0 then -zone else zone
  [sign] ++ appendInt (Int.tdiv zone 60) 2
    ++ (if colon then [':'] else [])
    ++ (if short then [] else appendInt (Int.tmod zone 60) 2)
    ++ (if seconds then (if colon then [':'] else []) ++ appendInt (Int.tmod absoffset 60) 2
        else [])

/-- The characters `AppendFormat` emits for one layout element. -/
def formatStd (std : Std) (name : String) (offset abs nsec : Int) : List Char :=
  let date := absDate abs
  let clock := absClock abs
  match std with
  | .stdYear => appendInt (Int.tmod (if date.year < 0 then -date.year else date.year) 100) 2
  | .stdLongYear => appendInt date.year 4
  | .stdMonth => (shortMonthNames.getD (date.month - 1).toNat "").data
  | .stdLongMonth => (longMonthNames.getD (date.month - 1).toNat "").data
  | .stdNumMonth => appendInt date.month 0
  | .stdZeroMonth => appendInt date.month 2
  | .stdWeekDay => (shortDayNames.getD (absWeekday abs).toNat "").data
  | .stdLongWeekDay => (longDayNames.getD (absWeekday abs).toNat "").data
  | .stdDay => appendInt date.day 0
  | .stdUnderDay => (if date.day < 10 then [' '] else []) ++ appendInt date.day 0
  | .stdZeroDay => appendInt date.day 2
  | .stdUnderYearDay =>
    let yday := date.yday + 1
    (if yday < 100 then [' '] ++ (if yday < 10 then [' '] else []) else []) ++ appendInt yday 0
  | .stdZeroYearDay => appendInt (date.yday + 1) 3
  | .stdHour => appendInt clock.hour 2
  | .stdHour12 => appendInt (if clock.hour % 12 == 0 then 12 else clock.hour % 12) 0
  | .stdZeroHour12 => appendInt (if clock.hour % 12 == 0 then 12 else clock.hour % 12) 2
  | .stdMinute => appendInt clock.min 0
  | .stdZeroMinute => appendInt clock.min 2
  | .stdSecond => appendInt clock.sec 0
  | .stdZeroSecond => appendInt clock.sec 2
  | .stdPM => if clock.hour >= 12 then "PM".data else "AM".data
  | .stdpm => if clock.hour >= 12 then "pm".data else "am".data
  | .stdISO8601TZ => if offset == 0 then ['Z'] else appendZone offset false false false
  | .stdISO8601ColonTZ => if offset == 0 then ['Z'] else appendZone offset true false false
  | .stdISO8601SecondsTZ => if offset == 0 then ['Z'] else appendZone offset false false true
  | .stdISO8601ShortTZ => if offset == 0 then ['Z'] else appendZone offset false true false
  | .stdISO8601ColonSecondsTZ => if offset == 0 then ['Z'] else appendZone offset true false true
  | .stdNumTZ => appendZone offset false false false
  | .stdNumColonTZ => appendZone offset true false false
  | .stdNumSecondsTz => appendZone offset false false true
  | .stdNumShortTZ => appendZone offset false true false
  | .stdNumColonSecondsTZ => appendZone offset true false true
  | .stdTZ => if name != "" then name.data else appendZone offset false false false
  | .stdFracSecond0 n => formatNano nsec.toNat n false
  | .stdFracSecond9 n => formatNano nsec.toNat n true

/-- The loop of `Time.AppendFormat`: one layout element per iteration. The
fuel is the number of iterations allowed; `layout.length + 1` is enough since
every element consumes at least one character. -/
def appendFormatLoop (name : String) (offset abs nsec : Int) :
    Nat → List Char → List Char
  | 0, _ => []
  | fuel + 1, layout =>
    if layout = [] then []
    else
      let k := nextStdChunk layout
      match k.std with
      | none => k.pfx
      | some std =>
        k.pfx ++ formatStd std name offset abs nsec
          ++ appendFormatLoop name offset abs nsec fuel k.suffix

/-- Go's `Time.Format`. -/
def Time.Format (t : Time) (layout : String) : String :=
  let z := t.loc.lookup t.sec
  String.mk (appendFormatLoop z.name z.offset t.abs t.nsec (layout.length + 1) layout.data)

/-! ## Go `time`: parsing (`format.go`) -/

/-- Go's `*time.ParseError`. -/
structure ParseError where
  Layout : String
  Value : String
  LayoutElem : String
  ValueElem : String
  Message : String
deriving DecidableEq, Repr

/-- Go's `cutspace`. -/
def cutspace (s : List Char) : List Char := s.dropWhile (· = ' ')

/-- The loop of Go's `skip(value, prefix)`; the result is the remaining value
and whether `errBad` was raised. Every iteration shortens `prefix`, so
`prefix.length` iterations suffice. -/
def skipLoop : Nat → List Char → List Char → List Char × Bool
  | 0, value, _ => (value, false)
  | _ + 1, value, [] => (value, false)
  | fuel + 1, value, p :: ps =>
    if p = ' ' then
      match value with
      | [] => skipLoop fuel (cutspace value) (cutspace (p :: ps))
      | v :: _ =>
        if v ≠ ' ' then (value, true)
        else skipLoop fuel (cutspace value) (cutspace (p :: ps))
    else
      match value with
      | [] => (value, true)
      | v :: vs => if v ≠ p then (value, true) else skipLoop fuel vs ps

/-- Go's `skip`. -/
def skip (value pfx : List Char) : List Char × Bool := skipLoop pfx.length value pfx

/-- The value of a decimal digit character. -/
def digitVal (c : Char) : Int := (c.toNat : Int) - 48

/-- The loop of Go's `leadingInt`: value, remainder and overflow flag. -/
def leadingIntFrom (x : Int) : List Char → Int × List Char × Bool
  | [] => (x, [], false)
  | c :: rest =>
    if c.toNat < 48 || c.toNat > 57 then (x, c :: rest, false)
    else if x > 922337203685477580 then (0, [], true)
    else
      let x1 := i64 (x * 10 + digitVal c)
      if x1 < 0 then (0, [], true) else leadingIntFrom x1 rest

/-- Go's `leadingInt`. -/
def leadingInt (s : List Char) : Int × List Char × Bool := leadingIntFrom 0 s

/-- Go's `atoi`: the number and whether `atoiError` was raised. -/
def atoi (s : List Char) : Int × Bool :=
  let neg : Bool := match s with
    | c :: _ => c == '-'
    | [] => false
  let s1 := match s with
    | c :: rest => if c = '-' || c = '+' then rest else s
    | [] => s
  let (q, rem, err) := leadingInt s1
  if err || rem ≠ [] then (0, true)
  else (if neg then -q else q, false)

/-- Result of the number readers: the number, the rest of the value, and
whether `errBad` was raised. -/
structure NumResult where
  n : Int
  rest : List Char
  err : Bool
deriving DecidableEq, Repr

/-- Go's `getnum`: one or two digits (exactly two when `fixed`). -/
def getnum (s : List Char) (fixed : Bool) : NumResult :=
  if !isDigit s 0 then ⟨0, s, true⟩
  else if !isDigit s 1 then
    if fixed then ⟨0, s, true⟩
    else ⟨digitVal (s.getD 0 '0'), s.drop 1, false⟩
  else ⟨digitVal (s.getD 0 '0') * 10 + digitVal (s.getD 1 '0'), s.drop 2, false⟩

/-- Go's `getnum3`: one to three digits (exactly three when `fixed`). -/
def getnum3 (s : List Char) (fixed : Bool) : NumResult :=
  let i := if !isDigit s 0 then 0 else if !isDigit s 1 then 1 else if !isDigit s 2 then 2 else 3
  let n := ((s.take i).foldl (fun acc c => acc * 10 + digitVal c) 0 : Int)
  if i == 0 || (fixed && i != 3) then ⟨0, s, true⟩ else ⟨n, s.drop i, false⟩

/-- Go's `match`: comparison of two strings of equal length, ignoring the case
of letters. -/
def matchFold : List Char → List Char → Bool
  | c1 :: r1, c2 :: r2 =>
    if c1 ≠ c2 then
      let l1 := c1.toNat ||| 32
      let l2 := c2.toNat ||| 32
      if l1 ≠ l2 || l1 < 97 || l1 > 122 then false else matchFold r1 r2
    else matchFold r1 r2
  | _, _ => true

/-- The loop of Go's `lookup(tab, val)`, `i` being the index of the head of
`tab`. On failure the index is `-1`. -/
def lookupFrom (i : Int) (val : List Char) : List String → NumResult
  | [] => ⟨-1, val, true⟩
  | v :: tab =>
    if val.length ≥ v.length && matchFold (val.take v.length) v.data then
      ⟨i, val.drop v.length, false⟩
    else lookupFrom (i + 1) val tab

/-- Go's `lookup(tab, val)`. -/
def lookup (tab : List String) (val : List Char) : NumResult := lookupFrom 0 val tab

/-- Go's `parseSignedOffset`: length of a leading `+hh`/`-hh`, or 0. -/
def parseSignedOffset (value : List Char) : Nat :=
  match value with
  | [] => 0
  | sign :: rest =>
    if sign ≠ '-' && sign ≠ '+' then 0
    else
      let (x, rem, err) := leadingInt rest
      if err || rest = rem then 0
      else
        let x := if sign = '-' then -x else x
        if x < -23 || 23 < x then 0 else value.length - rem.length

/-- Go's `parseGMT`. -/
def parseGMT (value : List Char) : Nat :=
  let value := value.drop 3
  if value.length = 0 then 3 else 3 + parseSignedOffset value

/-- Number of leading upper-case letters, at most 6. -/
def countUpper : Nat → List Char → Nat
  | 0, _ => 0
  | _ + 1, [] => 0
  | k + 1, c :: rest => if c.toNat < 65 || 90 < c.toNat then 0 else countUpper k rest + 1

/-- Go's `parseTimeZone`: length of a leading time zone abbreviation and
whether one was found. -/
def parseTimeZone (value : List Char) : Nat × Bool :=
  if value.length < 3 then (0, false)
  -- ChST and MeST are the only zones with a lower-case letter
  else if hasPrefix "ChST" value || hasPrefix "MeST" value then (4, true)
  -- GMT may have an hour offset
  else if hasPrefix "GMT" value then (parseGMT value, true)
  -- some zones are not named, but have the +00 or -00 form
  else if value.head? = some '+' || value.head? = some '-' then
    let length := parseSignedOffset value
    (length, decide (length > 0))
  else
    let nUpper := countUpper 6 value
    if nUpper = 5 then
      -- must end in T to match
      if value.get? 4 = some 'T' then (5, true) else (0, false)
    else if nUpper = 4 then
      -- must end in T, except one special case
      if value.get? 3 = some 'T' || hasPrefix "WITA" value then (4, true) else (0, false)
    else if nUpper = 3 then (3, true)
    else (0, false)

/-- Result of `parseNanoseconds`. -/
structure NanoResult where
  ns : Int
  rangeErrString : String
  err : Bool
deriving DecidableEq, Repr

/-- Go's `parseNanoseconds(value, nbytes)`. -/
def parseNanoseconds (value : List Char) (nbytes : Nat) : NanoResult :=
  if value.head? ≠ some '.' then ⟨0, "", true⟩
  else
    let (ns, err) := atoi ((value.take nbytes).drop 1)
    if err then ⟨0, "", true⟩
    else if ns < 0 || 1000000000 ≤ ns then ⟨ns, "fractional second", false⟩
    else ⟨ns * 10 ^ (10 - nbytes), "", false⟩

/-- The variables of `parse` that hold the time being constructed. -/
structure ParseState where
  year : Int
  month : Int
  day : Int
  yday : Int
  hour : Int
  min : Int
  sec : Int
  nsec : Int
  zUTC : Bool
  zoneOffset : Int
  zoneName : List Char
  amSet : Bool
  pmSet : Bool
deriving DecidableEq, Repr

/-- The initial values of the variables of `parse`. -/
def ParseState.init : ParseState :=
  { year := 0, month := -1, day := -1, yday := -1, hour := 0, min := 0, sec := 0, nsec := 0,
    zUTC := false, zoneOffset := -1, zoneName := [], amSet := false, pmSet := false }

/-- Outcome of processing one layout element: the variables, the rest of the
value, `err != nil`, and `rangeErrString`. -/
structure StepResult where
  st : ParseState
  value : List Char
  err : Bool
  rangeErrString : String
deriving DecidableEq, Repr

/-- The pieces of a numeric zone offset cut out of the value. -/
structure ZoneParts where
  sign : List Char
  hour : List Char
  min : List Char
  seconds : List Char
  rest : List Char
deriving DecidableEq, Repr

/-- Cutting a numeric zone offset out of the value, by kind of element;
`none` stands for `errBad`. -/
def zoneParts (std : Std) (value : List Char) : Option ZoneParts :=
  if std = .stdISO8601ColonTZ || std = .stdNumColonTZ then
    if value.length < 6 then none
    else if value.get? 3 ≠ some ':' then none
    else some ⟨value.take 1, (value.drop 1).take 2, (value.drop 4).take 2, "00".data,
      value.drop 6⟩
  else if std = .stdNumShortTZ || std = .stdISO8601ShortTZ then
    if value.length < 3 then none
    else some ⟨value.take 1, (value.drop 1).take 2, "00".data, "00".data, value.drop 3⟩
  else if std = .stdISO8601ColonSecondsTZ || std = .stdNumColonSecondsTZ then
    if value.length < 9 then none
    else if value.get? 3 ≠ some ':' || value.get? 6 ≠ some ':' then none
    else some ⟨value.take 1, (value.drop 1).take 2, (value.drop 4).take 2,
      (value.drop 7).take 2, value.drop 9⟩
  else if std = .stdISO8601SecondsTZ || std = .stdNumSecondsTz then
    if value.length < 7 then none
    else some ⟨value.take 1, (value.drop 1).take 2, (value.drop 3).take 2,
      (value.drop 5).take 2, value.drop 7⟩
  else
    if value.length < 5 then none
    else some ⟨value.take 1, (value.drop 1).take 2, (value.drop 3).take 2, "00".data,
      value.drop 5⟩

/-- The numeric zone cases of the `switch` in `parse`. -/
def parseZone (std : Std) (value : List Char) (st : ParseState) : StepResult :=
  if (std = .stdISO8601TZ || std = .stdISO8601ShortTZ || std = .stdISO8601ColonTZ)
      && value.head? = some 'Z' then
    ⟨{ st with zUTC := true }, value.drop 1, false, ""⟩
  else
    match zoneParts std value with
    | none => ⟨st, value, true, ""⟩
    | some z =>
      let (hr, e1) := atoi z.hour
      let (mm, e2) := if e1 then (0, true) else atoi z.min
      let (ss, e3) := if e2 then (0, true) else atoi z.seconds
      let zoneOffset := (hr * 60 + mm) * 60 + ss
      if z.sign = ['+'] then ⟨{ st with zoneOffset := zoneOffset }, z.rest, e3, ""⟩
      else if z.sign = ['-'] then ⟨{ st with zoneOffset := -zoneOffset }, z.rest, e3, ""⟩
      else ⟨{ st with zoneOffset := zoneOffset }, z.rest, true, ""⟩

/-- Number of digits following the first character, at most 9 (the scanning
loop of the `stdFracSecond9` case). -/
def countDigits : Nat → List Char → Nat
  | 0, _ => 0
  | _ + 1, [] => 0
  | k + 1, c :: rest => if 48 ≤ c.toNat && c.toNat ≤ 57 then countDigits k rest + 1 else 0

/-- The body of the `switch std & stdMask` of `parse` for one layout element;
`layout` is the layout that follows the element. -/
def parseStd (std : Std) (layout value : List Char) (st : ParseState) : StepResult :=
  match std with
  | .stdYear =>
    if value.length < 2 then ⟨st, value, true, ""⟩
    else
      let (year, err) := atoi (value.take 2)
      if err then ⟨{ st with year := year }, value, true, ""⟩
      else if year >= 69 then ⟨{ st with year := year + 1900 }, value.drop 2, false, ""⟩
      else ⟨{ st with year := year + 2000 }, value.drop 2, false, ""⟩
  | .stdLongYear =>
    if value.length < 4 || !isDigit value 0 then ⟨st, value, true, ""⟩
    else
      let (year, err) := atoi (value.take 4)
      if err then ⟨{ st with year := year }, value, true, ""⟩
      else ⟨{ st with year := year }, value.drop 4, false, ""⟩
  | .stdMonth =>
    let r := lookup shortMonthNames value
    ⟨{ st with month := r.n + 1 }, r.rest, r.err, ""⟩
  | .stdLongMonth =>
    let r := lookup longMonthNames value
    ⟨{ st with month := r.n + 1 }, r.rest, r.err, ""⟩
  | .stdNumMonth | .stdZeroMonth =>
    let r := getnum value (std = .stdZeroMonth)
    ⟨{ st with month := r.n }, r.rest, r.err,
      if !r.err && (r.n ≤ 0 || 12 < r.n) then "month" else ""⟩
  | .stdWeekDay =>
    -- the weekday is ignored except for error checking
    let r := lookup shortDayNames value
    ⟨st, r.rest, r.err, ""⟩
  | .stdLongWeekDay =>
    let r := lookup longDayNames value
    ⟨st, r.rest, r.err, ""⟩
  | .stdDay | .stdUnderDay | .stdZeroDay =>
    let value := if std = .stdUnderDay && value.head? = some ' ' then value.drop 1 else value
    let r := getnum value (std = .stdZeroDay)
    -- any one- or two-digit day is allowed here; it is validated after the loop
    ⟨{ st with day := r.n }, r.rest, r.err, ""⟩
  | .stdUnderYearDay | .stdZeroYearDay =>
    let value := if std = .stdUnderYearDay && value.head? = some ' ' then value.drop 1 else value
    let value := if std = .stdUnderYearDay && value.head? = some ' ' then value.drop 1 else value
    let r := getnum3 value (std = .stdZeroYearDay)
    ⟨{ st with yday := r.n }, r.rest, r.err, ""⟩
  | .stdHour =>
    let r := getnum value false
    ⟨{ st with hour := r.n }, r.rest, r.err, if r.n < 0 || 24 ≤ r.n then "hour" else ""⟩
  | .stdHour12 | .stdZeroHour12 =>
    let r := getnum value (std = .stdZeroHour12)
    ⟨{ st with hour := r.n }, r.rest, r.err, if r.n < 0 || 12 < r.n then "hour" else ""⟩
  | .stdMinute | .stdZeroMinute =>
    let r := getnum value (std = .stdZeroMinute)
    ⟨{ st with min := r.n }, r.rest, r.err, if r.n < 0 || 60 ≤ r.n then "minute" else ""⟩
  | .stdSecond | .stdZeroSecond =>
    let r := getnum value (std = .stdZeroSecond)
    if r.n < 0 || 60 ≤ r.n then ⟨{ st with sec := r.n }, r.rest, r.err, "second"⟩
    -- a fractional second in the value but none in the layout
    else if r.rest.length ≥ 2 && r.rest.head? = some '.' && isDigit r.rest 1 then
      match (nextStdChunk layout).std with
      | some (.stdFracSecond0 _) => ⟨{ st with sec := r.n }, r.rest, r.err, ""⟩
      | some (.stdFracSecond9 _) => ⟨{ st with sec := r.n }, r.rest, r.err, ""⟩
      | _ =>
        let n := 2 + countDigits (r.rest.length) (r.rest.drop 2)
        let f := parseNanoseconds r.rest n
        ⟨{ st with sec := r.n, nsec := f.ns }, r.rest.drop n, f.err, f.rangeErrString⟩
    else ⟨{ st with sec := r.n }, r.rest, r.err, ""⟩
  | .stdPM =>
    if value.length < 2 then ⟨st, value, true, ""⟩
    else if value.take 2 = "PM".data then ⟨{ st with pmSet := true }, value.drop 2, false, ""⟩
    else if value.take 2 = "AM".data then ⟨{ st with amSet := true }, value.drop 2, false, ""⟩
    else ⟨st, value.drop 2, true, ""⟩
  | .stdpm =>
    if value.length < 2 then ⟨st, value, true, ""⟩
    else if value.take 2 = "pm".data then ⟨{ st with pmSet := true }, value.drop 2, false, ""⟩
    else if value.take 2 = "am".data then ⟨{ st with amSet := true }, value.drop 2, false, ""⟩
    else ⟨st, value.drop 2, true, ""⟩
  | .stdISO8601TZ | .stdISO8601ColonTZ | .stdISO8601SecondsTZ | .stdISO8601ShortTZ
  | .stdISO8601ColonSecondsTZ | .stdNumTZ | .stdNumShortTZ | .stdNumColonTZ
  | .stdNumSecondsTz | .stdNumColonSecondsTZ => parseZone std value st
  | .stdTZ =>
    -- does it look like a time zone?
    if hasPrefix "UTC" value then ⟨{ st with zUTC := true }, value.drop 3, false, ""⟩
    else
      let (n, ok) := parseTimeZone value
      if !ok then ⟨st, value, true, ""⟩
      else ⟨{ st with zoneName := value.take n }, value.drop n, false, ""⟩
  | .stdFracSecond0 digits =>
    -- the exact number of digits given in the layout is required
    let ndigit := 1 + digits
    if value.length < ndigit then ⟨st, value, true, ""⟩
    else
      let f := parseNanoseconds value ndigit
      ⟨{ st with nsec := f.ns }, value.drop ndigit, f.err, f.rangeErrString⟩
  | .stdFracSecond9 _ =>
    if value.length < 2 || value.head? ≠ some '.' || !isDigit value 1 then
      -- fractional second omitted
      ⟨st, value, false, ""⟩
    else
      -- any number of digits is taken, even more than asked for
      let i := countDigits 9 (value.drop 1)
      let f := parseNanoseconds value (1 + i)
      ⟨{ st with nsec := f.ns }, value.drop (1 + i), f.err, f.rangeErrString⟩

/-- The characters of the layout element itself (`stdstr` in `parse`). -/
def stdstr (layout : List Char) (k : Chunk) : List Char :=
  (layout.drop k.pfx.length).take (layout.length - k.pfx.length - k.suffix.length)

/-- The `for` loop of `parse`, one layout element per iteration. `none` means
that the iterations allowed by the fuel were used up before the layout was
(lemma `parseLoop_terminates`: with `layout.length + 1` this does not happen). -/
def parseLoop (alayout avalue : String) :
    Nat → List Char → List Char → ParseState → Option (Except ParseError (ParseState × List Char))
  | 0, _, _, _ => none
  | fuel + 1, layout, value, st =>
    let k := nextStdChunk layout
    let (value, err) := skip value k.pfx
    if err then
      some (.error ⟨alayout, avalue, String.mk k.pfx, String.mk value, ""⟩)
    else
      match k.std with
      | none =>
        if value.length ≠ 0 then
          some (.error ⟨alayout, avalue, "", String.mk value,
            ": extra text: " ++ String.mk value⟩)
        else some (.ok (st, value))
      | some std =>
        let r := parseStd std k.suffix value st
        if r.rangeErrString ≠ "" then
          some (.error ⟨alayout, avalue, String.mk (stdstr layout k), String.mk r.value,
            ": " ++ r.rangeErrString ++ " out of range"⟩)
        else if r.err then
          some (.error ⟨alayout, avalue, String.mk (stdstr layout k), String.mk r.value, ""⟩)
        else parseLoop alayout avalue fuel k.suffix r.value r.st

/-- Go's `Time.addSec` for the second count. -/
def Time.addSec (t : Time) (d : Int) : Time := { t with sec := i64 (t.sec + d) }

/-- The part of `parse` after the loop: validation of the fields and
construction of the `Time`. -/
def parseFinish (alayout avalue : String) (st : ParseState) (value : List Char)
    (defaultLocation loc : Location) : Time × Option ParseError :=
  let hour :=
    if st.pmSet && st.hour < 12 then st.hour + 12
    else if st.amSet && st.hour == 12 then 0
    else st.hour
  -- convert yday to day, month
  let md : Except String (Int × Int) :=
    if st.yday >= 0 then
      let leapDay := isLeap st.year && st.yday == 31 + 29
      let yday := if isLeap st.year && st.yday > 31 + 29 then st.yday - 1 else st.yday
      if yday < 1 || yday > 365 then .error ": day-of-year out of range"
      else
        let m0 := (yday - 1) / 31 + 1
        let m := if leapDay then 2 else if daysBefore m0 < yday then m0 + 1 else m0
        let d := if leapDay then 29 else yday - daysBefore (m - 1)
        -- if month, day were already seen, they must match
        if st.month >= 0 && st.month != m then .error ": day-of-year does not match month"
        else if st.day >= 0 && st.day != d then .error ": day-of-year does not match day"
        else .ok (m, d)
    else .ok (if st.month < 0 then 1 else st.month, if st.day < 0 then 1 else st.day)
  match md with
  | .error msg => (Time.zero, some ⟨alayout, avalue, "", String.mk value, msg⟩)
  | .ok (month, day) =>
    -- validate the day of the month
    if day < 1 || day > daysIn month st.year then
      (Time.zero, some ⟨alayout, avalue, "", String.mk value, ": day out of range"⟩)
    else if st.zUTC then
      (Date st.year month day hour st.min st.sec st.nsec UTC, none)
    else if st.zoneOffset != -1 then
      let t := (Date st.year month day hour st.min st.sec st.nsec UTC).addSec (-st.zoneOffset)
      -- look for the local zone with the given offset
      let z := loc.lookup t.sec
      if z.offset == st.zoneOffset && (st.zoneName == [] || z.name.data == st.zoneName) then
        ({ t with loc := loc }, none)
      else
        -- otherwise create a fake zone
        ({ t with loc := FixedZone (String.mk st.zoneName) st.zoneOffset }, none)
    else if st.zoneName != [] then
      let t := Date st.year month day hour st.min st.sec st.nsec UTC
      -- look for the local zone with the given name
      match loc.lookupName (String.mk st.zoneName) t.sec with
      | some offset => ({ t.addSec (-offset) with loc := loc }, none)
      | none =>
        -- otherwise, create a fake zone with unknown offset
        let offset :=
          if st.zoneName.length > 3 && hasPrefix "GMT" st.zoneName then
            (atoi (st.zoneName.drop 3)).1 * 3600
          else 0
        ({ t with loc := FixedZone (String.mk st.zoneName) offset }, none)
    else
      -- otherwise, fall back to the default
      (Date st.year month day hour st.min st.sec st.nsec defaultLocation, none)

/-- Go's `time.Parse(layout, value)`, with the process's local location as a
parameter. It returns the time and the error; on error the time is `Time{}`. -/
def Parse (loc : Location) (layout value : String) : Time × Option ParseError :=
  match parseLoop layout value (layout.length + 1) layout.data value.data ParseState.init with
  | none => (Time.zero, none)
  | some (.error e) => (Time.zero, some e)
  | some (.ok (st, rest)) => parseFinish layout value st rest UTC loc

/-! ## Errors -/

/-- A Go `error` value: either an error made by a callee, identified by its
message, or the result of `fmt.Errorf(pfx + "%w", err)`, which wraps `err`. -/
inductive GoError where
  | mk (msg : String)
  | wrap (pfx : String) (err : GoError)
deriving DecidableEq, Repr

/-- The method `Error()`: the message of an error. -/
def GoError.Error : GoError → String
  | .mk msg => msg
  | .wrap pfx err => pfx ++ err.Error

/-- The method `Unwrap()`. -/
def GoError.Unwrap : GoError → Option GoError
  | .mk _ => none
  | .wrap _ err => some err

/-- Go's `errors.Is(e, target)`: `target` occurs in the chain of `e`. -/
def GoError.Is (e target : GoError) : Bool :=
  match e with
  | .mk msg => target == .mk msg
  | .wrap pfx err => target == .wrap pfx err || err.Is target

/-- Go's `context.Canceled`. -/
def contextCanceled : GoError := .mk "context canceled"

/-! ## Data model (`calendar.go` and the types it imports) -/

/-- The struct `Calendar`. -/
structure Calendar where
  UserEmail : String
  CredentialsPath : String
  RoomId : String
deriving DecidableEq, Repr

/-- The struct `calendars.Event` of `github.com/byuoitav/scheduler`. -/
structure Event where
  Title : String
  StartTime : Time
  EndTime : Time

/-- A `context.Context`, reduced to whether it is already canceled. -/
structure Context where
  canceled : Bool
deriving DecidableEq, Repr

/-- A `*jwt.Config`: the key material read from the credentials file, the
scopes asked for and the impersonation subject. -/
structure JWTConfig where
  Key : String
  Scopes : List String
  Subject : String
deriving DecidableEq, Repr

/-- The `oauth2.TokenSource` made by `conf.TokenSource(ctx)`. -/
structure TokenSource where
  conf : JWTConfig
  ctx : Context
deriving DecidableEq, Repr

/-- A `*calendar.Service`: a client bound to a token source. -/
structure Service where
  tokenSource : TokenSource
deriving DecidableEq, Repr

/-- A `*calendar.CalendarListEntry`, reduced to the fields read. -/
structure CalendarListEntry where
  Id : String
  Summary : String
deriving DecidableEq, Repr

/-- A `*calendar.EventDateTime`. -/
structure EventDateTime where
  Date : String
  DateTime : String
  TimeZone : String
deriving DecidableEq, Repr

/-- A `*calendar.Event`: the three fields the program reads and writes, and in
`Other` the name and value of every other field that is set. `Start` and `End`
are pointers (`*calendar.EventDateTime`); `none` is the nil pointer. -/
structure CalendarEvent where
  Summary : String
  Start : Option EventDateTime
  End : Option EventDateTime
  Other : List (String × String)
deriving DecidableEq, Repr

/-- A call made to a collaborator, with the data passed to it. -/
inductive Call where
  | ReadFile (path : String)
  | JWTConfigFromJSON (data : String) (scope : String)
  | NewService (ctx : Context) (ts : TokenSource)
  | CalendarListList (fields : String)
  | EventsList (calendarId fields timeMin timeMax : String)
  | EventsInsert (calendarId : String) (event : CalendarEvent)
deriving DecidableEq, Repr

/-- Whether a call is a request to the calendar provider. -/
def Call.isProviderRequest : Call → Bool
  | .CalendarListList _ => true
  | .EventsList _ _ _ _ => true
  | .EventsInsert _ _ => true
  | _ => false

/-- Whether a call goes to the provider's libraries at all: the construction
of the service (which carries the token source) or a request. -/
def Call.isProviderCall : Call → Bool
  | .NewService _ _ => true
  | c => c.isProviderRequest

/-- The collaborators of the program. `σ` is the state of the calendar
provider, which the three requests may read and change. -/
structure Env (σ : Type) where
  /-- The function `ioutil.ReadFile`. -/
  ReadFile : String → Except GoError String
  /-- The function `google.JWTConfigFromJSON`. -/
  JWTConfigFromJSON : String → String → Except GoError JWTConfig
  /-- The function `calendar.NewService(ctx, option.WithTokenSource(ts))`. -/
  NewService : Context → TokenSource → Except GoError Service
  /-- The request `calSvc.CalendarList.List().Fields(fields).Do()`. -/
  CalendarListDo : σ → Service → String → Except GoError (List CalendarListEntry) × σ
  /-- The request `calSvc.Events.List(id).Fields(f).TimeMin(a).TimeMax(b).Do()`. -/
  EventsListDo : σ → Service → String → String → String → String →
    Except GoError (List CalendarEvent) × σ
  /-- The request `calSvc.Events.Insert(id, event).Do()`. -/
  EventsInsertDo : σ → Service → String → CalendarEvent → Except GoError CalendarEvent × σ
  /-- Seconds of the clock read by `time.Now()`. -/
  NowSec : Int
  /-- Nanoseconds of the clock read by `time.Now()`. -/
  NowNsec : Int
  /-- The location `time.Local`. -/
  Local : Location

/-- Go's `time.Now()`: the clock reading, in the local location. -/
def Env.Now {σ : Type} (env : Env σ) : Time := ⟨env.NowSec, env.NowNsec, env.Local⟩

/-- How a call of `GetEvents` ends: it returns a value with a nil error, or it
returns an error, or it panics (the run-time error of dereferencing a nil
pointer). -/
inductive Result (α : Type) where
  | ok (v : α)
  | error (err : GoError)
  | panic (msg : String)

/-- What an operation leaves behind: its result, the provider's state and the
calls it made, in order. -/
structure Outcome (σ ρ : Type) where
  result : ρ
  state : σ
  trace : List Call

/-- The message of the run-time error raised by reading a field through a nil
pointer. -/
def nilDereference : String :=
  "runtime error: invalid memory address or nil pointer dereference"

/-- The layout string used throughout `calendar.go`. -/
def layoutRFC3339 : String := "2006-01-02T15:04:05-07:00"

/-! ## The program (`calendar.go`) -/

/-- The method `Calendar.AuthenticateClient`. -/
def AuthenticateClient {σ : Type} (env : Env σ) (c : Calendar) (ctx : Context) :
    Except GoError Service × List Call :=
  match env.ReadFile c.CredentialsPath with
  | .error err => (.error (.wrap "can't read project key file: " err),
      [.ReadFile c.CredentialsPath])
  | .ok data =>
    match env.JWTConfigFromJSON data "https://www.googleapis.com/auth/calendar" with
    | .error err => (.error (.wrap "can't sign JWT: " err),
        [.ReadFile c.CredentialsPath,
         .JWTConfigFromJSON data "https://www.googleapis.com/auth/calendar"])
    | .ok conf =>
      let conf := if c.UserEmail.length > 0 then { conf with Subject := c.UserEmail } else conf
      let ts : TokenSource := ⟨conf, ctx⟩
      let tr := [Call.ReadFile c.CredentialsPath,
        .JWTConfigFromJSON data "https://www.googleapis.com/auth/calendar",
        .NewService ctx ts]
      match env.NewService ctx ts with
      | .error err => (.error (.wrap "can't make calendar service: " err), tr)
      | .ok service => (.ok service, tr)

/-- The loop of `GetCalendarID` over `calList.Items`: the `Id` of the first
entry whose `Summary` equals `roomId`, if the loop returns from inside. -/
def scanCalendars (roomId : String) : List CalendarListEntry → Option String
  | [] => none
  | cal :: rest => if cal.Summary == roomId then some cal.Id else scanCalendars roomId rest

/-- The method `Calendar.GetCalendarID`. -/
def GetCalendarID {σ : Type} (env : Env σ) (c : Calendar) (calSvc : Service) (w : σ) :
    Outcome σ (Except GoError String) :=
  match env.CalendarListDo w calSvc "items" with
  | (.error err, w1) =>
    ⟨.error (.wrap "unable to retrieve calendar list: " err), w1, [.CalendarListList "items"]⟩
  | (.ok items, w1) =>
    match scanCalendars c.RoomId items with
    | some id => ⟨.ok id, w1, [.CalendarListList "items"]⟩
    | none =>
      ⟨.error (.mk ("room: " ++ c.RoomId ++ " does not have an assigned calendar")), w1,
        [.CalendarListList "items"]⟩

/-- The body of the loop of `GetEvents` over `eventList.Items`: the two calls
of `time.Parse`, whose errors are dropped, and the `append`. Reading
`event.Start.DateTime` or `event.End.DateTime` through a nil pointer panics;
`none` stands for the panic. -/
def appendEvent (loc : Location) (events : List Event) (event : CalendarEvent) :
    Option (List Event) :=
  match event.Start with
  | none => none
  | some start =>
    let eventStart := (Parse loc start.DateTime "2006-01-02T15:04:05-07:00").1
    match event.End with
    | none => none
    | some stop =>
      let eventEnd := (Parse loc stop.DateTime "2006-01-02T15:04:05-07:00").1
      some (events ++ [{ Title := event.Summary, StartTime := eventStart, EndTime := eventEnd }])

/-- The loop of `GetEvents` over `eventList.Items`, from the events appended so
far; `none` stands for a panic in one of the iterations. -/
def eventsLoop (loc : Location) : List Event → List CalendarEvent → Option (List Event)
  | events, [] => some events
  | events, event :: rest =>
    match appendEvent loc events event with
    | none => none
    | some events1 => eventsLoop loc events1 rest

/-- The local `currentDayBeginning` of `GetEvents`. -/
def currentDayBeginning (currentTime : Time) : Time :=
  Date currentTime.Year currentTime.Month currentTime.Day 0 0 0 0 currentTime.Location

/-- The local `currentDayEnding` of `GetEvents`. -/
def currentDayEnding (currentTime : Time) : Time :=
  Date currentTime.Year currentTime.Month currentTime.Day 23 59 59 0 currentTime.Location

/-- The method `Calendar.GetEvents`. -/
def GetEvents {σ : Type} (env : Env σ) (c : Calendar) (ctx : Context) (w : σ) :
    Outcome σ (Result (List Event)) :=
  match AuthenticateClient env c ctx with
  | (.error err, tr) => ⟨.error (.wrap "cannot authenticate client: " err), w, tr⟩
  | (.ok calSvc, tr) =>
    match GetCalendarID env c calSvc w with
    | ⟨.error err, w1, tr1⟩ => ⟨.error err, w1, tr ++ tr1⟩
    | ⟨.ok calID, w1, tr1⟩ =>
      let currentTime := env.Now
      let timeMin := (currentDayBeginning currentTime).Format "2006-01-02T15:04:05-07:00"
      let timeMax := (currentDayEnding currentTime).Format "2006-01-02T15:04:05-07:00"
      let tr2 := tr ++ tr1 ++ [.EventsList calID "items(summary, start, end)" timeMin timeMax]
      match env.EventsListDo w1 calSvc calID "items(summary, start, end)" timeMin timeMax with
      | (.error err, w2) => ⟨.error (.wrap "unable to retrieve events: " err), w2, tr2⟩
      | (.ok items, w2) =>
        match eventsLoop env.Local [] items with
        | some events => ⟨.ok events, w2, tr2⟩
        | none => ⟨.panic nilDereference, w2, tr2⟩

/-- The local `newEvent` of `CreateEvent`: the event translated into a G Suite
calendar event object. -/
def newEvent (event : Event) : CalendarEvent :=
  { Summary := event.Title
    Start := some { Date := "", DateTime := event.StartTime.Format "2006-01-02T15:04:05-07:00",
                    TimeZone := "" }
    End := some { Date := "", DateTime := event.EndTime.Format "2006-01-02T15:04:05-07:00",
                  TimeZone := "" }
    Other := [] }

/-- The method `Calendar.CreateEvent`. -/
def CreateEvent {σ : Type} (env : Env σ) (c : Calendar) (ctx : Context) (event : Event)
    (w : σ) : Outcome σ (Except GoError Unit) :=
  match AuthenticateClient env c ctx with
  | (.error err, tr) => ⟨.error (.wrap "cannot authenticate client: " err), w, tr⟩
  | (.ok calSvc, tr) =>
    match GetCalendarID env c calSvc w with
    | ⟨.error err, w1, tr1⟩ => ⟨.error err, w1, tr ++ tr1⟩
    | ⟨.ok calID, w1, tr1⟩ =>
      let tr2 := tr ++ tr1 ++ [.EventsInsert calID (newEvent event)]
      match env.EventsInsertDo w1 calSvc calID (newEvent event) with
      | (.error err, w2) => ⟨.error (.wrap "unable to create event: " err), w2, tr2⟩
      | (.ok _, w2) => ⟨.ok (), w2, tr2⟩

/-! ## Concrete collaborators used as examples -/

/-- A stub provider: its state is the list of events inserted so far; the
event-list request echoes them unchanged; the calendar list is fixed. The
clock reads 2024-03-15T10:00:00-07:00 in a zone fixed at -07:00. -/
def stubEnv : Env (List CalendarEvent) :=
  { ReadFile := fun _ => .ok "key"
    JWTConfigFromJSON := fun d s => .ok ⟨d, [s], ""⟩
    NewService := fun _ ts => .ok ⟨ts⟩
    CalendarListDo := fun w _ _ =>
      (.ok [⟨"id1", "Room A"⟩, ⟨"id2", "Room B"⟩, ⟨"id3", "Room B"⟩], w)
    EventsListDo := fun w _ _ _ _ _ => (.ok w, w)
    EventsInsertDo := fun w _ _ e => (.ok e, w ++ [e])
    NowSec := 1710522000
    NowNsec := 0
    Local := FixedZone "" (-25200) }

/-- The stub provider on a machine where the credentials file cannot be read. -/
def noFileEnv : Env (List CalendarEvent) :=
  { stubEnv with
    ReadFile := fun path => .error (.mk ("open " ++ path ++ ": no such file or directory")) }

/-- A client for the room "Room B". -/
def roomB : Calendar := ⟨"", "/etc/key.json", "Room B"⟩

/-- A client for a room that has no calendar. -/
def roomZ : Calendar := ⟨"", "/etc/key.json", "room b"⟩

/-- The event of the round-trip example: "Standup", 2024-03-15 from
09:00:00-07:00 to 09:15:00-07:00. -/
def standup : Event :=
  { Title := "Standup"
    StartTime := Date 2024 3 15 9 0 0 0 (FixedZone "" (-25200))
    EndTime := Date 2024 3 15 9 15 0 0 (FixedZone "" (-25200)) }

/-! ## Predicates on calls and further examples -/

/-- An event with an empty title that ends before it starts. -/
def invertedEvent : Event :=
  { Title := "", StartTime := standup.EndTime, EndTime := standup.StartTime }

/-- Whether a call is the event-list request. -/
def Call.isEventsList : Call → Bool
  | .EventsList _ _ _ _ => true
  | _ => false

/-- Whether a call is the event-insert request. -/
def Call.isEventsInsert : Call → Bool
  | .EventsInsert _ _ => true
  | _ => false

/-- Whether an item of the event list has both its start and its end. -/
def CalendarEvent.hasTimes (item : CalendarEvent) : Bool :=
  item.Start.isSome && item.End.isSome

/-- The `DateTime` string behind a pointer, empty behind the nil pointer. -/
def dateTimeOf : Option EventDateTime → String
  | some t => t.DateTime
  | none => ""

/-- The event `GetEvents` makes of one item of the event list that has its
start and its end. -/
def itemEvent (loc : Location) (item : CalendarEvent) : Event :=
  { Title := item.Summary
    StartTime := (Parse loc (dateTimeOf item.Start) "2006-01-02T15:04:05-07:00").1
    EndTime := (Parse loc (dateTimeOf item.End) "2006-01-02T15:04:05-07:00").1 }

/-- An all-day item, as the service returns it: only `Date` is set. -/
def allDayItem : CalendarEvent :=
  { Summary := "Offsite", Start := some ⟨"2024-03-15", "", ""⟩,
    End := some ⟨"2024-03-16", "", ""⟩, Other := [] }

/-- An item without start. -/
def noStartItem : CalendarEvent :=
  { Summary := "Canceled", Start := none, End := some ⟨"", "2024-03-15T10:00:00-07:00", ""⟩,
    Other := [] }

/-- An item with a start, an all-day one, but without end. -/
def noEndItem : CalendarEvent :=
  { Summary := "Open", Start := some ⟨"2024-03-15", "", ""⟩, End := none, Other := [] }

/-- An event that starts in the year 10000 and ends at an instant given in a
zone whose offset, 30 seconds west, is not a whole number of minutes. -/
def oddEvent : Event :=
  { Title := "Odd"
    StartTime := Date 10000 1 1 0 0 0 0 UTC
    EndTime := Date 2024 3 15 9 0 0 0 (FixedZone "LMT" (-30)) }

/-- A location whose offset changes from -07:00 to -06:00 at the instant
2024-03-10T09:00:00Z, that is at 02:00:00 local time, as the offset of
America/Denver did. -/
def denverLike : Location :=
  { lookup := fun sec =>
      if sec < 1710061200 then ⟨"MST", -25200, zoneAlpha, 1710061200⟩
      else ⟨"MDT", -21600, 1710061200, zoneOmega⟩
    lookupName := fun n _ =>
      if n = "MST" then some (-25200) else if n = "MDT" then some (-21600) else none }

/-- The stub provider on a machine in that location, the clock reading
2024-03-10T12:00:00-06:00. -/
def denverEnv : Env (List CalendarEvent) :=
  { stubEnv with NowSec := 1710093600, Local := denverLike }

/-- A location whose offset changes from +10:00 to +11:00 at the instant
2024-10-05T16:00:00Z, that is at 02:00:00 local time of 2024-10-06, as the
offset of Australia/Sydney did. -/
def sydneyLike : Location :=
  { lookup := fun sec =>
      if sec < 1728144000 then ⟨"AEST", 36000, zoneAlpha, 1728144000⟩
      else ⟨"AEDT", 39600, 1728144000, zoneOmega⟩
    lookupName := fun n _ =>
      if n = "AEST" then some 36000 else if n = "AEDT" then some 39600 else none }

/-- The stub provider on a machine in that location, the clock reading
2024-10-06T12:00:00+11:00. -/
def sydneyEnv : Env (List CalendarEvent) :=
  { stubEnv with NowSec := 1728176400, Local := sydneyLike }

/-- A location whose offset changes from +02:00 to +03:00 at the instant
2024-04-25T22:00:00Z, that is at local midnight of 2024-04-26, as the offset of
Africa/Cairo did. -/
def cairoLike : Location :=
  { lookup := fun sec =>
      if sec < 1714082400 then ⟨"EET", 7200, zoneAlpha, 1714082400⟩
      else ⟨"EEST", 10800, 1714082400, zoneOmega⟩
    lookupName := fun n _ =>
      if n = "EET" then some 7200 else if n = "EEST" then some 10800 else none }

/-- The stub provider on a machine in that location, the clock reading
2024-04-26T10:00:00+03:00. -/
def cairoEnv : Env (List CalendarEvent) :=
  { stubEnv with NowSec := 1714114800, Local := cairoLike }

/-! ## Calendar and rendering, stated independently of the program -/

/-- Leap years of the Gregorian calendar. -/
def leapYear (y : Int) : Prop := y % 4 = 0 ∧ (y % 100 ≠ 0 ∨ y % 400 = 0)

instance (y : Int) : Decidable (leapYear y) := by unfold leapYear; infer_instance

/-- Number of days of month `m` of year `y`. -/
def monthLength (y m : Int) : Int :=
  if m = 2 then (if leapYear y then 29 else 28)
  else if m = 4 ∨ m = 6 ∨ m = 9 ∨ m = 11 then 30
  else 31

/-- Number of days of year `y` before the first of month `m`. -/
def daysBeforeMonth (y m : Int) : Int :=
  ((List.range (m - 1).toNat).map fun i => monthLength y (i + 1)).sum

/-- Number of days from 0001-01-01 to the date `y`-`m`-`d` of the proleptic
Gregorian calendar. -/
def civilDays (y m d : Int) : Int :=
  365 * (y - 1) + (y - 1) / 4 - (y - 1) / 100 + (y - 1) / 400 + daysBeforeMonth y m + (d - 1)

/-- The instant, in Unix seconds, at which a clock showing the local date
`y`-`m`-`d` and the local time `hh`:`mm`:`ss` at UTC offset `o` is read
(1970-01-01 is day 719162 after 0001-01-01). -/
def civilUnix (y m d hh mm ss o : Int) : Int :=
  (civilDays y m d - 719162) * 86400 + hh * 3600 + mm * 60 + ss - o

/-- Two decimal digits. -/
def dec2 (n : Int) : List Char :=
  [digitChar (n.toNat / 10 % 10), digitChar (n.toNat % 10)]

/-- Four decimal digits. -/
def dec4 (n : Int) : List Char :=
  [digitChar (n.toNat / 1000 % 10), digitChar (n.toNat / 100 % 10),
   digitChar (n.toNat / 10 % 10), digitChar (n.toNat % 10)]

/-- The RFC 3339 timestamp `YYYY-MM-DDThh:mm:ss±hh:mm` with numeric offset of
`o` seconds. -/
def rfc3339 (y m d hh mm ss o : Int) : String :=
  String.mk (dec4 y ++ ['-'] ++ dec2 m ++ ['-'] ++ dec2 d ++ ['T'] ++ dec2 hh ++ [':']
    ++ dec2 mm ++ [':'] ++ dec2 ss ++ [if o < 0 then '-' else '+']
    ++ dec2 (o.natAbs / 3600) ++ [':'] ++ dec2 (o.natAbs / 60 % 60))

/-- A reading of a clock: a date, a time of day and the offset from UTC, in
seconds, of the zone it is read in. -/
structure CivilTime where
  year : Int
  month : Int
  day : Int
  hour : Int
  min : Int
  sec : Int
  offset : Int
deriving DecidableEq, Repr

/-- A reading that RFC 3339 can write down: a date of the Gregorian calendar
in the years 0 to 9999, a time of day, and an offset of a whole number of
minutes, less than a day. -/
def CivilTime.valid (c : CivilTime) : Prop :=
  (0 ≤ c.year ∧ c.year ≤ 9999) ∧ (1 ≤ c.month ∧ c.month ≤ 12)
    ∧ (1 ≤ c.day ∧ c.day ≤ monthLength c.year c.month)
    ∧ (0 ≤ c.hour ∧ c.hour < 24) ∧ (0 ≤ c.min ∧ c.min < 60) ∧ (0 ≤ c.sec ∧ c.sec < 60)
    ∧ (-86400 < c.offset ∧ c.offset < 86400) ∧ c.offset % 60 = 0

instance (c : CivilTime) : Decidable c.valid := by unfold CivilTime.valid; infer_instance

/-- The RFC 3339 timestamp of a reading. -/
def CivilTime.rfc3339 (c : CivilTime) : String :=
  Gsuite.rfc3339 c.year c.month c.day c.hour c.min c.sec c.offset

/-- The instant `t` is the one at which a clock in the zone of `t` shows the
reading `c`: the zone has the offset of `c` at `t`, and `t` is that date and
time of day at that offset. -/
def Time.shows (t : Time) (c : CivilTime) : Prop :=
  (t.loc.lookup t.sec).offset = c.offset
    ∧ t.sec = civilUnix c.year c.month c.day c.hour c.min c.sec c.offset

instance (t : Time) (c : CivilTime) : Decidable (t.shows c) := by
  unfold Time.shows; infer_instance

/-- A string is an RFC 3339 timestamp of the instant `t` when it is the
timestamp of a reading that RFC 3339 can write down and that a clock at the
offset of the reading shows at `t`. -/
def isRFC3339Of (s : String) (t : Time) : Prop :=
  ∃ c : CivilTime, c.valid ∧ s = c.rfc3339
    ∧ t.sec = civilUnix c.year c.month c.day c.hour c.min c.sec c.offset

/-! ## Theorems: calendar arithmetic of the `time` model -/

theorem isLeap_iff (y : Int) : isLeap y = true ↔ leapYear y := by
  simp [isLeap, leapYear]

theorem daysBeforeMonth_eq (y m : Int) (hm : 1 ≤ m ∧ m ≤ 12) :
    daysBeforeMonth y m = daysBefore (m - 1) + (if isLeap y && m ≥ 3 then 1 else 0) := by
  obtain ⟨h1, h2⟩ := hm
  by_cases hl : leapYear y
  · have hL : isLeap y = true := (isLeap_iff y).2 hl
    interval_cases m <;>
      simp [daysBeforeMonth, monthLength, hl, hL, daysBefore, daysBeforeTab, List.range_succ]
  · have hL : isLeap y = false := by
      rw [← Bool.not_eq_true, isLeap_iff]; exact hl
    interval_cases m <;>
      simp [daysBeforeMonth, monthLength, hl, hL, daysBefore, daysBeforeTab, List.range_succ]

theorem daysBefore_0 : daysBefore 0 = 0 := by decide
theorem daysBefore_1 : daysBefore 1 = 31 := by decide
theorem daysBefore_2 : daysBefore 2 = 59 := by decide
theorem daysBefore_3 : daysBefore 3 = 90 := by decide
theorem daysBefore_4 : daysBefore 4 = 120 := by decide
theorem daysBefore_5 : daysBefore 5 = 151 := by decide
theorem daysBefore_6 : daysBefore 6 = 181 := by decide
theorem daysBefore_7 : daysBefore 7 = 212 := by decide
theorem daysBefore_8 : daysBefore 8 = 243 := by decide
theorem daysBefore_9 : daysBefore 9 = 273 := by decide
theorem daysBefore_10 : daysBefore 10 = 304 := by decide
theorem daysBefore_11 : daysBefore 11 = 334 := by decide
theorem daysBefore_12 : daysBefore 12 = 365 := by decide

theorem monthOfDay_eq (x m d : Int) (hm : 1 ≤ m ∧ m ≤ 12)
    (hd : 1 ≤ d ∧ d ≤ daysBefore m - daysBefore (m - 1))
    (hx : x = daysBefore (m - 1) + (d - 1)) : monthOfDay x = (m, d) := by
  obtain ⟨h1, h2⟩ := hm
  obtain ⟨hd1, hd2⟩ := hd
  obtain ⟨q, hq⟩ : ∃ q, x / 31 = q := ⟨_, rfl⟩
  obtain ⟨m', hm'⟩ : ∃ m', m' = m := ⟨_, rfl⟩
  simp only [monthOfDay, hq]
  interval_cases m <;> norm_num [daysBefore_0, daysBefore_1, daysBefore_2, daysBefore_3, daysBefore_4, daysBefore_5, daysBefore_6, daysBefore_7, daysBefore_8, daysBefore_9, daysBefore_10, daysBefore_11, daysBefore_12] at hd2 hx <;>
    (have hq2 : q = m' - 1 ∨ q = m' - 2 := by omega) <;>
    subst hm' <;>
    rcases hq2 with h | h <;> subst h <;>
    norm_num [daysBefore_0, daysBefore_1, daysBefore_2, daysBefore_3, daysBefore_4, daysBefore_5, daysBefore_6, daysBefore_7, daysBefore_8, daysBefore_9, daysBefore_10, daysBefore_11, daysBefore_12] <;> split_ifs <;>
    simp only [Prod.mk.injEq] <;> constructor <;> first | omega | trivial

theorem monthDay_civil (y m d : Int) (hm : 1 ≤ m ∧ m ≤ 12)
    (hd : 1 ≤ d ∧ d ≤ monthLength y m) :
    monthDay y (daysBeforeMonth y m + (d - 1)) = ⟨y, m, d, daysBeforeMonth y m + (d - 1)⟩ := by
  rw [daysBeforeMonth_eq y m hm]
  obtain ⟨h1, h2⟩ := hm
  obtain ⟨hd1, hd2⟩ := hd
  have hlen : monthLength y m = daysBefore m - daysBefore (m - 1)
      + (if isLeap y && m == 2 then 1 else 0) := by
    by_cases hl : leapYear y
    · have hL : isLeap y = true := (isLeap_iff y).2 hl
      interval_cases m <;> simp [monthLength, hl, hL, daysBefore, daysBeforeTab]
    · have hL : isLeap y = false := by
        rw [← Bool.not_eq_true, isLeap_iff]; exact hl
      interval_cases m <;> simp [monthLength, hl, hL, daysBefore, daysBeforeTab]
  rw [hlen] at hd2
  cases hL : isLeap y
  · simp only [hL, Bool.false_and, Bool.false_eq_true, if_false, Int.add_zero] at hd2 ⊢
    simp only [monthDay, hL, Bool.false_and, Bool.false_eq_true, if_false]
    rw [monthOfDay_eq _ m d ⟨h1, h2⟩ ⟨hd1, hd2⟩ rfl]
  · by_cases hm3 : m ≥ 3
    · have hm2 : (m == 2) = false := by simp; omega
      have hb : 59 ≤ daysBefore (m - 1) := by
        interval_cases m <;> simp [daysBefore, daysBeforeTab]
      simp only [hL, hm2, Bool.and_false, Bool.false_eq_true, if_false, Int.add_zero] at hd2
      have e1 : ((true && decide (m ≥ 3)) = true) := by simp [hm3]
      simp only [monthDay, hL, e1, if_true]
      have e2 : (daysBefore (m - 1) + 1 + (d - 1) == 31 + 29 - 1) = false := by
        simp; omega
      have e3 : decide (daysBefore (m - 1) + 1 + (d - 1) > 31 + 29 - 1) = true := by
        simp; omega
      simp only [e2, e3, Bool.and_false, Bool.and_true, Bool.false_eq_true, if_false, if_true]
      have e4 : daysBefore (m - 1) + 1 + (d - 1) - 1 = daysBefore (m - 1) + (d - 1) := by omega
      rw [e4, monthOfDay_eq _ m d ⟨h1, h2⟩ ⟨hd1, hd2⟩ rfl]
    · have e1 : ((true && decide (m ≥ 3)) = true) = False := by simp [hm3]
      simp only [hL, e1, if_false, Int.add_zero]
      by_cases hleapday : m = 2 ∧ d = 29
      · obtain ⟨rfl, rfl⟩ := hleapday
        simp [monthDay, hL, daysBefore, daysBeforeTab]
      · have hd3 : d ≤ daysBefore m - daysBefore (m - 1) := by
          have : m = 1 ∨ m = 2 := by omega
          rcases this with rfl | rfl <;> simp [daysBefore, daysBeforeTab] at hd2 ⊢ <;> omega
        have hlt : daysBefore (m - 1) + (d - 1) < 59 := by
          have : m = 1 ∨ m = 2 := by omega
          rcases this with rfl | rfl <;> simp [daysBefore, daysBeforeTab] at hd3 ⊢ <;> omega
        have e2 : (daysBefore (m - 1) + (d - 1) == 31 + 29 - 1) = false := by
          simp; omega
        have e3 : decide (daysBefore (m - 1) + (d - 1) > 31 + 29 - 1) = false := by
          simp; omega
        simp only [monthDay, hL, e2, e3, Bool.and_false, Bool.false_eq_true, if_false]
        rw [monthOfDay_eq _ m d ⟨h1, h2⟩ ⟨hd1, hd3⟩ rfl]

/-- Decomposition of a year into 400-, 100-, 4- and 1-year cycles since year 1. -/
theorem year_cycles (y : Int) :
    ∃ a b c e : Int, (0 ≤ b ∧ b ≤ 3) ∧ (0 ≤ c ∧ c ≤ 24) ∧ (0 ≤ e ∧ e ≤ 3)
      ∧ y - 1 = 400 * a + 100 * b + 4 * c + e
      ∧ (leapYear y ↔ e = 3 ∧ (c ≠ 24 ∨ b = 3))
      ∧ 365 * (y - 1) + (y - 1) / 4 - (y - 1) / 100 + (y - 1) / 400
          = 146097 * a + 36524 * b + 1461 * c + 365 * e := by
  refine ⟨(y - 1) / 400, (y - 1) % 400 / 100, (y - 1) % 400 % 100 / 4, (y - 1) % 400 % 100 % 4,
    by omega, by omega, by omega, by omega, ?_, by omega⟩
  unfold leapYear
  constructor
  · intro h
    constructor
    · omega
    · by_cases h100 : y % 100 = 0
      · right; omega
      · left; omega
  · rintro ⟨h1, h2⟩
    constructor
    · omega
    · rcases h2 with h2 | h2
      · left; omega
      · by_cases hc : (y - 1) % 400 % 100 / 4 = 24
        · right; omega
        · left; omega

theorem yday_bounds (y m d : Int) (hm : 1 ≤ m ∧ m ≤ 12) (hd : 1 ≤ d ∧ d ≤ monthLength y m) :
    0 ≤ daysBeforeMonth y m + (d - 1)
      ∧ (daysBeforeMonth y m + (d - 1) < 365
          ∨ (daysBeforeMonth y m + (d - 1) = 365 ∧ leapYear y)) := by
  obtain ⟨h1, h2⟩ := hm
  obtain ⟨hd1, hd2⟩ := hd
  by_cases hl : leapYear y
  · interval_cases m <;>
      simp [daysBeforeMonth, monthLength, hl, List.range_succ] at hd2 ⊢ <;> omega
  · interval_cases m <;>
      simp [daysBeforeMonth, monthLength, hl, List.range_succ] at hd2 ⊢ <;> omega

theorem step_n100 (b c e yd D1 : Int)
    (hb : 0 ≤ b ∧ b ≤ 3) (hc : 0 ≤ c ∧ c ≤ 24) (he : 0 ≤ e ∧ e ≤ 3)
    (hyd0 : 0 ≤ yd) (hyd1 : yd < 365 ∨ (yd = 365 ∧ e = 3 ∧ (c ≠ 24 ∨ b = 3)))
    (hD1 : D1 = 36524 * b + 1461 * c + 365 * e + yd) :
    D1 / 36524 - D1 / 36524 / 4 = b := by
  by_cases h : 1461 * c + 365 * e + yd < 36524
  · have : D1 / 36524 = b := by omega
    rw [this]; omega
  · have hb3 : b = 3 := by omega
    have : D1 / 36524 = 4 := by omega
    rw [this]; omega

theorem step_n1 (e yd D3 : Int) (he : 0 ≤ e ∧ e ≤ 3)
    (hyd0 : 0 ≤ yd) (hyd1 : yd < 365 ∨ (yd = 365 ∧ e = 3))
    (hD3 : D3 = 365 * e + yd) :
    D3 / 365 - D3 / 365 / 4 = e := by
  by_cases h : yd < 365
  · have : D3 / 365 = e := by omega
    rw [this]; omega
  · have : D3 / 365 = 4 := by omega
    rw [this]; omega

theorem div_86400 (abs N s : Int) (hs : 0 ≤ s ∧ s < 86400) (habs : abs = N * 86400 + s) :
    abs / 86400 = N := by omega

theorem div_146097 (N q r : Int) (hr : 0 ≤ r ∧ r < 146097) (hN : N = 146097 * q + r) :
    N / 146097 = q := by omega

theorem div_1461 (N q r : Int) (hr : 0 ≤ r ∧ r < 1461) (hN : N = 1461 * q + r) :
    N / 1461 = q := by omega

theorem cycles_bound1 (b c e yd : Int)
    (hb : 0 ≤ b ∧ b ≤ 3) (hc : 0 ≤ c ∧ c ≤ 24) (he : 0 ≤ e ∧ e ≤ 3)
    (hyd0 : 0 ≤ yd) (hyd1 : yd < 365 ∨ (yd = 365 ∧ e = 3 ∧ (c ≠ 24 ∨ b = 3))) :
    0 ≤ 36524 * b + 1461 * c + 365 * e + yd
      ∧ 36524 * b + 1461 * c + 365 * e + yd < 146097 := by
  rcases hyd1 with h | ⟨h, h3, h4 | h4⟩ <;> omega

theorem cycles_bound3 (e yd : Int) (he : 0 ≤ e ∧ e ≤ 3)
    (hyd0 : 0 ≤ yd) (hyd2 : yd < 365 ∨ (yd = 365 ∧ e = 3)) :
    0 ≤ 365 * e + yd ∧ 365 * e + yd < 1461 := by
  rcases hyd2 with h | ⟨h, h3⟩ <;> omega

theorem cycles_year (y a b c e : Int)
    (hb : 0 ≤ b ∧ b ≤ 3) (hc : 0 ≤ c ∧ c ≤ 24) (he : 0 ≤ e ∧ e ≤ 3)
    (ha : -730692556 ≤ a ∧ a ≤ 730692556)
    (hy : y - 1 = 400 * a + 100 * b + 4 * c + e) :
    i64 (400 * (a + 730692556) + 100 * b + 4 * c + e + -292277022399) = y := by
  unfold i64
  omega

theorem absYearDay_cycles (abs N s y yd a b c e : Int)
    (hs : 0 ≤ s ∧ s < 86400) (habs : abs = N * 86400 + s)
    (hb : 0 ≤ b ∧ b ≤ 3) (hc : 0 ≤ c ∧ c ≤ 24) (he : 0 ≤ e ∧ e ≤ 3)
    (ha : -730692556 ≤ a ∧ a ≤ 730692556)
    (hy : y - 1 = 400 * a + 100 * b + 4 * c + e)
    (hyd0 : 0 ≤ yd) (hyd1 : yd < 365 ∨ (yd = 365 ∧ e = 3 ∧ (c ≠ 24 ∨ b = 3)))
    (hN : N = 146097 * (a + 730692556) + 36524 * b + 1461 * c + 365 * e + yd) :
    absYearDay abs = (y, yd) := by
  have hyd2 : yd < 365 ∨ (yd = 365 ∧ e = 3) := by
    rcases hyd1 with h | ⟨h, h3, _⟩
    · exact Or.inl h
    · exact Or.inr ⟨h, h3⟩
  have b1 := cycles_bound1 b c e yd hb hc he hyd0 hyd1
  have b3 := cycles_bound3 e yd he hyd0 hyd2
  have h9 := cycles_year y a b c e hb hc he ha hy
  have h0 : abs / 86400 = N := div_86400 abs N s hs habs
  have h1 : N / 146097 = a + 730692556 :=
    div_146097 N _ (36524 * b + 1461 * c + 365 * e + yd) b1 (by rw [hN]; ring)
  have h2 : N - 146097 * (a + 730692556) = 36524 * b + 1461 * c + 365 * e + yd := by
    rw [hN]; ring
  have h3 : (36524 * b + 1461 * c + 365 * e + yd) / 36524
      - (36524 * b + 1461 * c + 365 * e + yd) / 36524 / 4 = b :=
    step_n100 b c e yd _ hb hc he hyd0 hyd1 rfl
  have h4 : 36524 * b + 1461 * c + 365 * e + yd - 36524 * b = 1461 * c + 365 * e + yd := by
    ring
  have h5 : (1461 * c + 365 * e + yd) / 1461 = c :=
    div_1461 _ c (365 * e + yd) b3 (by ring)
  have h6 : 1461 * c + 365 * e + yd - 1461 * c = 365 * e + yd := by ring
  have h7 : (365 * e + yd) / 365 - (365 * e + yd) / 365 / 4 = e :=
    step_n1 e yd _ he hyd0 hyd2 rfl
  have h8 : 365 * e + yd - 365 * e = yd := by ring
  simp only [absYearDay, secondsPerDay, daysPer400Years, daysPer100Years, daysPer4Years,
    absoluteZeroYear, h0, h1, h2, h3, h4, h5, h6, h7, h8, h9]

/-- Go's `absDate` inverts the day count of the proleptic Gregorian calendar:
on second `s` of the day of date `y`-`m`-`d` it returns that date. -/
theorem absDate_civil (y m d s : Int) (hy : 0 ≤ y ∧ y ≤ 9999) (hm : 1 ≤ m ∧ m ≤ 12)
    (hd : 1 ≤ d ∧ d ≤ monthLength y m) (hs : 0 ≤ s ∧ s < 86400) :
    absDate ((civilDays y m d + 106751990353932) * 86400 + s)
      = ⟨y, m, d, daysBeforeMonth y m + (d - 1)⟩ := by
  obtain ⟨a, b, c, e, hb, hc, he, hyc, hleap, hdays⟩ := year_cycles y
  obtain ⟨hyd0, hyd1⟩ := yday_bounds y m d hm hd
  have hyd : absYearDay ((civilDays y m d + 106751990353932) * 86400 + s)
      = (y, daysBeforeMonth y m + (d - 1)) := by
    apply absYearDay_cycles _ (civilDays y m d + 106751990353932) s y _ a b c e hs rfl hb hc he
      (by omega) hyc hyd0
    · rcases hyd1 with h | ⟨h, hl⟩
      · exact Or.inl h
      · exact Or.inr ⟨h, hleap.1 hl⟩
    · unfold civilDays
      omega
  rw [absDate, hyd]
  exact monthDay_civil y m d hm hd

theorem absClock_of (N hh mm ss : Int) (hh0 : 0 ≤ hh ∧ hh < 24) (hm0 : 0 ≤ mm ∧ mm < 60)
    (hs0 : 0 ≤ ss ∧ ss < 60) :
    absClock (N * 86400 + (hh * 3600 + mm * 60 + ss)) = ⟨hh, mm, ss⟩ := by
  have h0 : (N * 86400 + (hh * 3600 + mm * 60 + ss)) % 86400 = hh * 3600 + mm * 60 + ss := by
    omega
  have h1 : (hh * 3600 + mm * 60 + ss) / 3600 = hh := by omega
  have h2 : (hh * 3600 + mm * 60 + ss - hh * 3600) / 60 = mm := by omega
  have h3 : hh * 3600 + mm * 60 + ss - hh * 3600 - mm * 60 = ss := by omega
  simp only [absClock, secondsPerDay, secondsPerHour, secondsPerMinute, h0, h1, h2, h3]

theorem u64_of_range (x : Int) (h : 0 ≤ x ∧ x < 18446744073709551616) : u64 x = x := by
  unfold u64
  omega

theorem i64_of_range (x : Int) (h : -9223372036854775808 ≤ x ∧ x < 9223372036854775808) :
    i64 x = x := by
  unfold i64
  omega

theorem div_400 (N q r : Int) (hr : 0 ≤ r ∧ r < 400) (hN : N = 400 * q + r) :
    N / 400 = q := by omega

theorem div_100 (N q r : Int) (hr : 0 ≤ r ∧ r < 100) (hN : N = 100 * q + r) :
    N / 100 = q := by omega

theorem div_4 (N q r : Int) (hr : 0 ≤ r ∧ r < 4) (hN : N = 4 * q + r) :
    N / 4 = q := by omega

theorem daysSinceEpoch_cycles (y a b c e : Int)
    (hb : 0 ≤ b ∧ b ≤ 3) (hc : 0 ≤ c ∧ c ≤ 24) (he : 0 ≤ e ∧ e ≤ 3)
    (ha : -730692556 ≤ a ∧ a ≤ 730692556)
    (hy : y - 1 = 400 * a + 100 * b + 4 * c + e) :
    daysSinceEpoch y = 146097 * (a + 730692556) + 36524 * b + 1461 * c + 365 * e := by
  have hY : y - -292277022399 = 400 * (a + 730692556) + (100 * b + 4 * c + e) := by omega
  have h0 : u64 (400 * (a + 730692556) + (100 * b + 4 * c + e))
      = 400 * (a + 730692556) + (100 * b + 4 * c + e) := u64_of_range _ (by omega)
  have h1 : (400 * (a + 730692556) + (100 * b + 4 * c + e)) / 400 = a + 730692556 :=
    div_400 _ _ (100 * b + 4 * c + e) (by omega) rfl
  have h2 : 400 * (a + 730692556) + (100 * b + 4 * c + e) - 400 * (a + 730692556)
      = 100 * b + (4 * c + e) := by ring
  have h3 : (100 * b + (4 * c + e)) / 100 = b := div_100 _ _ (4 * c + e) (by omega) rfl
  have h4 : 100 * b + (4 * c + e) - 100 * b = 4 * c + e := by ring
  have h5 : (4 * c + e) / 4 = c := div_4 _ _ e (by omega) rfl
  have h6 : 4 * c + e - 4 * c = e := by ring
  simp only [daysSinceEpoch, absoluteZeroYear, daysPer400Years, daysPer100Years, daysPer4Years,
    hY, h0, h1, h2, h3, h4, h5, h6]

theorem daysSinceEpoch_civil (y : Int) (hy : 0 ≤ y ∧ y ≤ 9999) :
    daysSinceEpoch y
      = 365 * (y - 1) + (y - 1) / 4 - (y - 1) / 100 + (y - 1) / 400 + 106751990353932 := by
  obtain ⟨a, b, c, e, hb, hc, he, hyc, _, hdays⟩ := year_cycles y
  rw [daysSinceEpoch_cycles y a b c e hb hc he (by omega) hyc, hdays]
  ring

theorem norm_of_range (hi lo base : Int) (h : 0 ≤ lo ∧ lo < base) :
    norm hi lo base = (hi, lo) := by
  obtain ⟨h0, h1⟩ := h
  have e1 : ¬ lo < 0 := by omega
  have e2 : ¬ lo ≥ base := by omega
  simp [norm, e1, e2]

theorem civilDays_bounds (y m d : Int) (hy : 0 ≤ y ∧ y ≤ 9999) (hm : 1 ≤ m ∧ m ≤ 12)
    (hd : 1 ≤ d ∧ d ≤ monthLength y m) :
    -366 ≤ civilDays y m d ∧ civilDays y m d ≤ 3652424 := by
  obtain ⟨hyd0, hyd1⟩ := yday_bounds y m d hm hd
  have hb : daysBeforeMonth y m + (d - 1) ≤ 365 := by
    rcases hyd1 with h | ⟨h, _⟩ <;> omega
  unfold civilDays
  omega

theorem daysBefore_range (m : Int) (hm : 1 ≤ m ∧ m ≤ 12) :
    0 ≤ daysBefore (m - 1) ∧ daysBefore (m - 1) ≤ 334 := by
  obtain ⟨h1, h2⟩ := hm
  interval_cases m <;> simp [daysBefore, daysBeforeTab]

theorem dateDays_civil (y m d : Int) (hy : 0 ≤ y ∧ y ≤ 9999) (hm : 1 ≤ m ∧ m ≤ 12)
    (hd : 1 ≤ d ∧ d ≤ monthLength y m) :
    dateDays y m d = civilDays y m d + 106751990353932 := by
  obtain ⟨S, hS⟩ : ∃ S : Int, S = 365 * (y - 1) + (y - 1) / 4 - (y - 1) / 100 + (y - 1) / 400
      + 106751990353932 := ⟨_, rfl⟩
  have hSb : 106751990353932 - 366 ≤ S ∧ S ≤ 106751990353932 + 3652424 := by omega
  have hdb := daysBefore_range m hm
  have hdm := daysBeforeMonth_eq y m hm
  obtain ⟨B, hB⟩ : ∃ B : Int, B = daysBefore (m - 1) := ⟨_, rfl⟩
  rw [← hB] at hdb hdm
  have hd31 : d ≤ 31 := by
    have : monthLength y m ≤ 31 := by
      unfold monthLength
      split_ifs <;> omega
    omega
  have hcd : civilDays y m d + 106751990353932 = S + daysBeforeMonth y m + (d - 1) := by
    unfold civilDays
    omega
  rw [hcd, hdm]
  clear hcd hdm
  have h0 : daysSinceEpoch y = S := by rw [daysSinceEpoch_civil y hy, hS]
  have h1 : u64 (S + B) = S + B := u64_of_range _ (by omega)
  have h2 : u64 (S + B + 1) = S + B + 1 := u64_of_range _ (by omega)
  have h3 : u64 (d - 1) = d - 1 := u64_of_range _ (by omega)
  simp only [dateDays, h0, ← hB, h1, h2, h3]
  split_ifs
  · rw [u64_of_range _ (by omega)]; ring
  · rw [u64_of_range _ (by omega)]; ring

theorem dateUnix_civil (y m d hh mm ss : Int) (hy : 0 ≤ y ∧ y ≤ 9999) (hm : 1 ≤ m ∧ m ≤ 12)
    (hd : 1 ≤ d ∧ d ≤ monthLength y m) (hh0 : 0 ≤ hh ∧ hh < 24) (hm0 : 0 ≤ mm ∧ mm < 60)
    (hs0 : 0 ≤ ss ∧ ss < 60) :
    dateUnix y m d hh mm ss = civilUnix y m d hh mm ss 0 := by
  have hb := civilDays_bounds y m d hy hm hd
  obtain ⟨C, hC⟩ : ∃ C : Int, C = civilDays y m d := ⟨_, rfl⟩
  rw [← hC] at hb
  have h1 : u64 ((C + 106751990353932) * 86400) = (C + 106751990353932) * 86400 :=
    u64_of_range _ (by omega)
  have h2 : u64 (hh * 3600 + mm * 60 + ss) = hh * 3600 + mm * 60 + ss :=
    u64_of_range _ (by omega)
  have h3 : u64 ((C + 106751990353932) * 86400 + (hh * 3600 + mm * 60 + ss))
      = (C + 106751990353932) * 86400 + (hh * 3600 + mm * 60 + ss) :=
    u64_of_range _ (by omega)
  have h4 : i64 (i64 ((C + 106751990353932) * 86400 + (hh * 3600 + mm * 60 + ss))
        + (-9223371966579724800 + -62135596800))
      = (C + 106751990353932) * 86400 + (hh * 3600 + mm * 60 + ss)
        + (-9223371966579724800 + -62135596800) := by
    unfold i64
    omega
  simp only [dateUnix, dateDays_civil y m d hy hm hd, ← hC, secondsPerDay, secondsPerHour,
    secondsPerMinute, absoluteToInternal, internalToUnix, h1, h2, h3, h4, civilUnix]
  ring

theorem dateZone_const (loc : Location) (L o : Int)
    (hL : -9000000000000000000 ≤ L ∧ L ≤ 9000000000000000000)
    (ho : -86400 < o ∧ o < 86400)
    (hz1 : (loc.lookup L).offset = o) (hz2 : (loc.lookup (L - o)).offset = o) :
    dateZone loc L = L - o := by
  have h1 : i64 (L - o) = L - o := i64_of_range _ (by omega)
  simp only [dateZone, hz1, h1, hz2]
  by_cases h0 : o = 0
  · subst h0
    simp
  · have : (o != 0) = true := by simp [h0]
    simp only [this, if_true]
    split_ifs <;> simp only [hz1, hz2, h1]

theorem civilUnix_offset (y m d hh mm ss o : Int) :
    civilUnix y m d hh mm ss o = civilUnix y m d hh mm ss 0 - o := by
  unfold civilUnix
  ring

/-- Go's `time.Date`, on a valid civil date and time of day in a location
whose offset is `o` at the two instants looked up, returns the instant at which
a clock at offset `o` shows that date and time. -/
theorem Date_civil (loc : Location) (y m d hh mm ss o : Int)
    (hy : 0 ≤ y ∧ y ≤ 9999) (hm : 1 ≤ m ∧ m ≤ 12) (hd : 1 ≤ d ∧ d ≤ monthLength y m)
    (hh0 : 0 ≤ hh ∧ hh < 24) (hm0 : 0 ≤ mm ∧ mm < 60) (hs0 : 0 ≤ ss ∧ ss < 60)
    (ho : -86400 < o ∧ o < 86400)
    (hz1 : (loc.lookup (civilUnix y m d hh mm ss 0)).offset = o)
    (hz2 : (loc.lookup (civilUnix y m d hh mm ss o)).offset = o) :
    Date y m d hh mm ss 0 loc = ⟨civilUnix y m d hh mm ss o, 0, loc⟩ := by
  have n1 : norm y (m - 1) 12 = (y, m - 1) := norm_of_range _ _ _ (by omega)
  have n2 : norm ss 0 1000000000 = (ss, 0) := norm_of_range _ _ _ (by omega)
  have n3 : norm mm ss 60 = (mm, ss) := norm_of_range _ _ _ hs0
  have n4 : norm hh mm 60 = (hh, mm) := norm_of_range _ _ _ hm0
  have n5 : norm d hh 24 = (d, hh) := norm_of_range _ _ _ hh0
  have e1 : m - 1 + 1 = m := by omega
  have hb := civilDays_bounds y m d hy hm hd
  have hL : -9000000000000000000 ≤ civilUnix y m d hh mm ss 0
      ∧ civilUnix y m d hh mm ss 0 ≤ 9000000000000000000 := by
    unfold civilUnix
    omega
  rw [civilUnix_offset] at hz2
  simp only [Date, n1, n2, n3, n4, n5, e1, dateUnix_civil y m d hh mm ss hy hm hd hh0 hm0 hs0,
    dateZone_const loc _ o hL ho hz1 hz2, ← civilUnix_offset]

/-! ## Theorems: formatting with the layout of `calendar.go` -/

theorem appendFormatLoop_layout (name : String) (offset abs nsec : Int) :
    appendFormatLoop name offset abs nsec 26 "2006-01-02T15:04:05-07:00".data
      = appendInt (absDate abs).year 4 ++ ('-' :: (appendInt (absDate abs).month 2
        ++ ('-' :: (appendInt (absDate abs).day 2 ++ ('T' :: (appendInt (absClock abs).hour 2
        ++ (':' :: (appendInt (absClock abs).min 2 ++ (':' :: (appendInt (absClock abs).sec 2
        ++ appendZone offset true false false)))))))))) := by
  have h : appendFormatLoop name offset abs nsec 26 "2006-01-02T15:04:05-07:00".data
      = appendInt (absDate abs).year 4 ++ ('-' :: (appendInt (absDate abs).month 2
        ++ ('-' :: (appendInt (absDate abs).day 2 ++ ('T' :: (appendInt (absClock abs).hour 2
        ++ (':' :: (appendInt (absClock abs).min 2 ++ (':' :: (appendInt (absClock abs).sec 2
        ++ (appendZone offset true false false ++ []))))))))))) := rfl
  rw [h, List.append_nil]

theorem Format_layout (t : Time) :
    t.Format "2006-01-02T15:04:05-07:00"
      = String.mk (appendInt (absDate t.abs).year 4 ++ ('-' :: (appendInt (absDate t.abs).month 2
        ++ ('-' :: (appendInt (absDate t.abs).day 2 ++ ('T' :: (appendInt (absClock t.abs).hour 2
        ++ (':' :: (appendInt (absClock t.abs).min 2 ++ (':' :: (appendInt (absClock t.abs).sec 2
        ++ appendZone (t.loc.lookup t.sec).offset true false false))))))))))) := by
  have h : t.Format "2006-01-02T15:04:05-07:00" = String.mk (appendFormatLoop
      (t.loc.lookup t.sec).name (t.loc.lookup t.sec).offset t.abs t.nsec 26
      "2006-01-02T15:04:05-07:00".data) := rfl
  rw [h, appendFormatLoop_layout]

theorem digitChar_zero : digitChar 0 = '0' := by decide

theorem appendIntDigits_small (fuel k : Nat) (acc : List Char) (h : k < 10) :
    appendIntDigits (fuel + 1) k acc = digitChar k :: acc := by
  have : ¬ k ≥ 10 := by omega
  simp [appendIntDigits, this]

theorem appendIntDigits_step (fuel k : Nat) (acc : List Char) (h : 10 ≤ k) :
    appendIntDigits (fuel + 1) k acc = appendIntDigits fuel (k / 10) (digitChar (k % 10) :: acc) := by
  simp [appendIntDigits, h]

theorem appendInt_nat (k width : Nat) :
    appendInt (k : Int) width
      = List.replicate (width - (appendIntDigits 20 k []).length) '0'
          ++ appendIntDigits 20 k [] := by
  simp [appendInt]

theorem appendInt_dec2 (n : Int) (hn : 0 ≤ n ∧ n < 100) : appendInt n 2 = dec2 n := by
  obtain ⟨h0, h1⟩ := hn
  lift n to Nat using h0
  have hk : n < 100 := by omega
  rw [appendInt_nat]
  simp only [dec2, Int.toNat_ofNat]
  by_cases h10 : n < 10
  · rw [appendIntDigits_small 19 n [] h10]
    have e1 : n / 10 % 10 = 0 := by omega
    have e2 : n % 10 = n := by omega
    simp [e1, e2, digitChar_zero]
  · rw [appendIntDigits_step 19 n [] (by omega), appendIntDigits_small 18 _ _ (by omega)]
    have e1 : n / 10 % 10 = n / 10 := by omega
    simp [e1]

theorem appendInt_dec4 (n : Int) (hn : 0 ≤ n ∧ n < 10000) : appendInt n 4 = dec4 n := by
  obtain ⟨h0, h1⟩ := hn
  lift n to Nat using h0
  have hk : n < 10000 := by omega
  rw [appendInt_nat]
  simp only [dec4, Int.toNat_ofNat]
  by_cases h10 : n < 10
  · rw [appendIntDigits_small 19 n [] h10]
    have e1 : n / 1000 % 10 = 0 := by omega
    have e2 : n / 100 % 10 = 0 := by omega
    have e3 : n / 10 % 10 = 0 := by omega
    have e4 : n % 10 = n := by omega
    simp [e1, e2, e3, e4, digitChar_zero, List.replicate]
  · by_cases h100 : n < 100
    · rw [appendIntDigits_step 19 n [] (by omega), appendIntDigits_small 18 _ _ (by omega)]
      have e1 : n / 1000 % 10 = 0 := by omega
      have e2 : n / 100 % 10 = 0 := by omega
      have e3 : n / 10 % 10 = n / 10 := by omega
      simp [e1, e2, e3, digitChar_zero, List.replicate]
    · by_cases h1000 : n < 1000
      · rw [appendIntDigits_step 19 n [] (by omega), appendIntDigits_step 18 _ _ (by omega),
          appendIntDigits_small 17 _ _ (by omega)]
        have e1 : n / 1000 % 10 = 0 := by omega
        have e2 : n / 100 % 10 = n / 10 / 10 := by omega
        have e3 : n / 10 % 10 = n / 10 % 10 := rfl
        simp [e1, e2, digitChar_zero, List.replicate]
      · rw [appendIntDigits_step 19 n [] (by omega), appendIntDigits_step 18 _ _ (by omega),
          appendIntDigits_step 17 _ _ (by omega), appendIntDigits_small 16 _ _ (by omega)]
        have e1 : n / 1000 % 10 = n / 10 / 10 / 10 := by omega
        have e2 : n / 100 % 10 = n / 10 / 10 % 10 := by omega
        simp [e1, e2]

theorem appendZone_colon (o : Int) (ho : -86400 < o ∧ o < 86400) (ho60 : o % 60 = 0) :
    appendZone o true false false
      = [if o < 0 then '-' else '+'] ++ dec2 (o.natAbs / 3600) ++ [':']
          ++ dec2 (o.natAbs / 60 % 60) := by
  obtain ⟨h1, h2⟩ := ho
  by_cases hneg : o < 0
  · obtain ⟨p, hp⟩ : ∃ p : Int, p = -o / 60 := ⟨_, rfl⟩
    have hz : Int.tdiv o 60 = -p := by
      have : o = -(-o) := by omega
      rw [this, Int.neg_tdiv, Int.tdiv_eq_ediv (by omega) (by omega), hp]
    have hp0 : 1 ≤ p ∧ p < 1440 := by omega
    have e1 : (-p < 0) := by omega
    have e2 : Int.tdiv p 60 = p / 60 := Int.tdiv_eq_ediv (by omega) (by omega)
    have e3 : Int.tmod p 60 = p % 60 := Int.tmod_eq_emod (by omega) (by omega)
    have e4 : ((o.natAbs : Int) / 3600) = p / 60 := by omega
    have e5 : ((o.natAbs : Int) / 60 % 60) = p % 60 := by omega
    simp only [appendZone, hz, e1, if_true, neg_neg, e2, e3, hneg, e4, e5, Bool.false_eq_true,
      if_false]
    rw [appendInt_dec2 _ (by omega), appendInt_dec2 _ (by omega)]
    simp
  · obtain ⟨p, hp⟩ : ∃ p : Int, p = o / 60 := ⟨_, rfl⟩
    have hz : Int.tdiv o 60 = p := by
      rw [Int.tdiv_eq_ediv (by omega) (by omega), hp]
    have hp0 : 0 ≤ p ∧ p < 1440 := by omega
    have e1 : ¬ (p < 0) := by omega
    have e2 : Int.tdiv p 60 = p / 60 := Int.tdiv_eq_ediv (by omega) (by omega)
    have e3 : Int.tmod p 60 = p % 60 := Int.tmod_eq_emod (by omega) (by omega)
    have e4 : ((o.natAbs : Int) / 3600) = p / 60 := by omega
    have e5 : ((o.natAbs : Int) / 60 % 60) = p % 60 := by omega
    simp only [appendZone, hz, e1, if_false, e2, e3, hneg, e4, e5, Bool.false_eq_true]
    rw [appendInt_dec2 _ (by omega), appendInt_dec2 _ (by omega)]
    simp

/-! ## Theorems: the loops of the `time` model end within their fuel -/

theorem stdAtJ_len (l : List Char) (k : ChunkAt) (h : stdAtJ l = some k) : 1 ≤ k.len := by
  unfold stdAtJ at h
  split_ifs at h <;> (injection h with h; subst h; simp)

theorem stdAtM_len (l : List Char) (k : ChunkAt) (h : stdAtM l = some k) : 1 ≤ k.len := by
  unfold stdAtM at h
  split_ifs at h <;> (injection h with h; subst h; simp)

theorem stdAt0_len (l : List Char) (k : ChunkAt) (h : stdAt0 l = some k) : 1 ≤ k.len := by
  unfold stdAt0 at h
  split_ifs at h <;> (injection h with h; subst h; simp)

theorem stdAt1_len (l : List Char) (k : ChunkAt) (h : stdAt1 l = some k) : 1 ≤ k.len := by
  unfold stdAt1 at h
  split_ifs at h <;> (injection h with h; subst h; simp)

theorem stdAt2_len (l : List Char) (k : ChunkAt) (h : stdAt2 l = some k) : 1 ≤ k.len := by
  unfold stdAt2 at h
  split_ifs at h <;> (injection h with h; subst h; simp)

theorem stdAtUnder_len (l : List Char) (k : ChunkAt) (h : stdAtUnder l = some k) :
    1 ≤ k.len := by
  unfold stdAtUnder at h
  split_ifs at h <;> (injection h with h; subst h; simp)

theorem stdAtMinus_len (l : List Char) (k : ChunkAt) (h : stdAtMinus l = some k) :
    1 ≤ k.len := by
  unfold stdAtMinus at h
  split_ifs at h <;> (injection h with h; subst h; simp)

theorem stdAtZ_len (l : List Char) (k : ChunkAt) (h : stdAtZ l = some k) : 1 ≤ k.len := by
  unfold stdAtZ at h
  split_ifs at h <;> (injection h with h; subst h; simp)

theorem stdAtDot_len (l rest : List Char) (k : ChunkAt) (h : stdAtDot l rest = some k) :
    1 ≤ k.len := by
  unfold stdAtDot at h
  split at h
  · cases h
  · dsimp only at h
    split_ifs at h <;> (injection h with h; subst h; simp)

theorem stdAt_len (l : List Char) (k : ChunkAt) (h : stdAt l = some k) : 1 ≤ k.len := by
  cases l with
  | nil => cases h
  | cons c rest =>
    unfold stdAt at h
    dsimp only at h
    by_cases h0 : c = 'J'
    · rw [if_pos h0] at h
      exact stdAtJ_len _ k h
    rw [if_neg h0] at h
    by_cases h1 : c = 'M'
    · rw [if_pos h1] at h
      exact stdAtM_len _ k h
    rw [if_neg h1] at h
    by_cases h2 : c = '0'
    · rw [if_pos h2] at h
      exact stdAt0_len _ k h
    rw [if_neg h2] at h
    by_cases h3 : c = '1'
    · rw [if_pos h3] at h
      exact stdAt1_len _ k h
    rw [if_neg h3] at h
    by_cases h4 : c = '2'
    · rw [if_pos h4] at h
      exact stdAt2_len _ k h
    rw [if_neg h4] at h
    by_cases h5 : c = '_'
    · rw [if_pos h5] at h
      exact stdAtUnder_len _ k h
    rw [if_neg h5] at h
    by_cases h6 : c = '3'
    · rw [if_pos h6] at h
      injection h with h; subst h; simp
    rw [if_neg h6] at h
    by_cases h7 : c = '4'
    · rw [if_pos h7] at h
      injection h with h; subst h; simp
    rw [if_neg h7] at h
    by_cases h8 : c = '5'
    · rw [if_pos h8] at h
      injection h with h; subst h; simp
    rw [if_neg h8] at h
    by_cases h9 : c = 'P'
    · rw [if_pos h9] at h
      split_ifs at h
      · injection h with h; subst h; simp
    rw [if_neg h9] at h
    by_cases h10 : c = 'p'
    · rw [if_pos h10] at h
      split_ifs at h
      · injection h with h; subst h; simp
    rw [if_neg h10] at h
    by_cases h11 : c = '-'
    · rw [if_pos h11] at h
      exact stdAtMinus_len _ k h
    rw [if_neg h11] at h
    by_cases h12 : c = 'Z'
    · rw [if_pos h12] at h
      exact stdAtZ_len _ k h
    rw [if_neg h12] at h
    by_cases h13 : c = '.'
    · rw [if_pos h13] at h
      exact stdAtDot_len _ _ k h
    rw [if_neg h13] at h
    cases h

theorem nextStdChunkFrom_suffix (l acc : List Char) (std : Std)
    (h : (nextStdChunkFrom acc l).std = some std) :
    (nextStdChunkFrom acc l).suffix.length < l.length := by
  induction l generalizing acc with
  | nil => simp [nextStdChunkFrom] at h
  | cons c rest ih =>
    rw [nextStdChunkFrom] at h ⊢
    cases hk : stdAt (c :: rest) with
    | none =>
      rw [hk] at h
      simp only [hk] at h ⊢
      have := ih (c :: acc) h
      simp only [List.length_cons]
      omega
    | some k =>
      have hlen := stdAt_len _ k hk
      simp only [hk, List.length_drop, List.length_cons]
      omega

theorem nextStdChunk_suffix (l : List Char) (std : Std) (h : (nextStdChunk l).std = some std) :
    (nextStdChunk l).suffix.length < l.length :=
  nextStdChunkFrom_suffix l [] std h

/-- The loop of `parse` ends within the iterations allowed: with more fuel than
the layout has characters it never runs out. -/
theorem parseLoop_terminates (alayout avalue : String) (fuel : Nat) (layout value : List Char)
    (st : ParseState) (h : layout.length < fuel) :
    parseLoop alayout avalue fuel layout value st ≠ none := by
  induction fuel generalizing layout value st with
  | zero => omega
  | succ n ih =>
    rw [parseLoop]
    simp only
    split
    · simp
    · split
      · split <;> simp
      · rename_i std hstd
        split
        · simp
        · split
          · simp
          · apply ih
            have := nextStdChunk_suffix layout std hstd
            omega

/-- The loop of `AppendFormat` gives the same result for every fuel larger
than the length of the layout. -/
theorem appendFormatLoop_fuel (name : String) (offset abs nsec : Int) (f1 f2 : Nat)
    (layout : List Char) (h1 : layout.length < f1) (h2 : layout.length < f2) :
    appendFormatLoop name offset abs nsec f1 layout
      = appendFormatLoop name offset abs nsec f2 layout := by
  induction f1 generalizing f2 layout with
  | zero => omega
  | succ n ih =>
    cases f2 with
    | zero => omega
    | succ k =>
      rw [appendFormatLoop, appendFormatLoop]
      split
      · rfl
      · cases hstd : (nextStdChunk layout).std with
        | none => simp only [hstd]
        | some std =>
          simp only [hstd]
          have := nextStdChunk_suffix layout std hstd
          rw [ih k _ (by omega) (by omega)]

theorem cutspace_length (s : List Char) : (cutspace s).length ≤ s.length := by
  unfold cutspace
  induction s with
  | nil => simp
  | cons c rest ih =>
    rw [List.dropWhile_cons]
    split
    · simp only [List.length_cons]; omega
    · simp

theorem cutspace_space (ps : List Char) : cutspace (' ' :: ps) = cutspace ps := by
  simp [cutspace, List.dropWhile_cons]

/-- The loop of `skip` gives the same result for every fuel that is at least
the length of the prefix. -/
theorem skipLoop_fuel (f1 f2 : Nat) (value pfx : List Char)
    (h1 : pfx.length ≤ f1) (h2 : pfx.length ≤ f2) :
    skipLoop f1 value pfx = skipLoop f2 value pfx := by
  induction f1 generalizing f2 value pfx with
  | zero =>
    have : pfx = [] := List.length_eq_zero.1 (by omega)
    subst this
    cases f2 <;> simp [skipLoop]
  | succ n ih =>
    cases pfx with
    | nil => cases f2 <;> simp [skipLoop]
    | cons p ps =>
      cases f2 with
      | zero => simp at h2
      | succ k =>
        simp only [List.length_cons] at h1 h2
        by_cases hp : p = ' '
        · subst hp
          have hc := cutspace_length ps
          simp only [skipLoop, if_true, cutspace_space]
          cases value with
          | nil => exact ih k _ _ (by omega) (by omega)
          | cons v vs =>
            dsimp only
            split
            · rfl
            · exact ih k _ _ (by omega) (by omega)
        · simp only [skipLoop, hp, if_false]
          cases value with
          | nil => rfl
          | cons v vs =>
            dsimp only
            split
            · rfl
            · exact ih k _ _ (by omega) (by omega)

/-! ## Theorems: instants, readings and time stamps -/

theorem abs_civil (loc : Location) (y m d hh mm ss o nsec : Int)
    (hy : 0 ≤ y ∧ y ≤ 9999) (hm : 1 ≤ m ∧ m ≤ 12) (hd : 1 ≤ d ∧ d ≤ monthLength y m)
    (hh0 : 0 ≤ hh ∧ hh < 24) (hm0 : 0 ≤ mm ∧ mm < 60) (hs0 : 0 ≤ ss ∧ ss < 60)
    (hz : (loc.lookup (civilUnix y m d hh mm ss o)).offset = o) :
    (⟨civilUnix y m d hh mm ss o, nsec, loc⟩ : Time).abs
      = (civilDays y m d + 106751990353932) * 86400 + (hh * 3600 + mm * 60 + ss) := by
  have hb := civilDays_bounds y m d hy hm hd
  simp only [Time.abs, hz, unixToInternal, internalToAbsolute]
  unfold civilUnix u64
  omega

theorem Format_civil (loc : Location) (y m d hh mm ss o nsec : Int)
    (hy : 0 ≤ y ∧ y ≤ 9999) (hm : 1 ≤ m ∧ m ≤ 12) (hd : 1 ≤ d ∧ d ≤ monthLength y m)
    (hh0 : 0 ≤ hh ∧ hh < 24) (hm0 : 0 ≤ mm ∧ mm < 60) (hs0 : 0 ≤ ss ∧ ss < 60)
    (ho : -86400 < o ∧ o < 86400) (ho60 : o % 60 = 0)
    (hz : (loc.lookup (civilUnix y m d hh mm ss o)).offset = o) :
    (⟨civilUnix y m d hh mm ss o, nsec, loc⟩ : Time).Format "2006-01-02T15:04:05-07:00"
      = rfc3339 y m d hh mm ss o := by
  have hd31 : d ≤ 31 := by
    have : monthLength y m ≤ 31 := by
      unfold monthLength
      split_ifs <;> omega
    omega
  rw [Format_layout, abs_civil loc y m d hh mm ss o nsec hy hm hd hh0 hm0 hs0 hz,
    absDate_civil y m d _ hy hm hd (by omega), absClock_of _ hh mm ss hh0 hm0 hs0]
  simp only [hz]
  rw [appendInt_dec4 y (by omega), appendInt_dec2 m (by omega), appendInt_dec2 d (by omega),
    appendInt_dec2 hh (by omega), appendInt_dec2 mm (by omega), appendInt_dec2 ss (by omega),
    appendZone_colon o ho ho60]
  simp [rfc3339]

theorem civilUnix_shift (y m d hh mm ss o : Int) :
    civilUnix y m d hh mm ss o = civilUnix y m d 0 0 0 0 + (hh * 3600 + mm * 60 + ss) - o := by
  unfold civilUnix
  ring

/-- Formatting with the layout of `calendar.go` an instant that shows a
reading RFC 3339 can write down gives the RFC 3339 timestamp of that reading. -/
theorem Format_shows (t : Time) (c : CivilTime) (hv : c.valid) (hs : t.shows c) :
    t.Format "2006-01-02T15:04:05-07:00" = c.rfc3339 := by
  obtain ⟨hy, hm, hd, hh, hmi, hse, ho, ho60⟩ := hv
  obtain ⟨hz, hsec⟩ := hs
  cases t with
  | mk sec nsec loc =>
    simp only at hz hsec
    subst hsec
    exact Format_civil loc _ _ _ _ _ _ _ nsec hy hm hd hh hmi hse ho ho60 hz

theorem rfc3339_length (y m d hh mm ss o : Int) : (rfc3339 y m d hh mm ss o).length = 25 := by
  simp [rfc3339, dec2, dec4]

theorem civilUnix_mod (y m d hh mm ss o : Int) (hs : 0 ≤ ss ∧ ss < 60) (ho : o % 60 = 0) :
    civilUnix y m d hh mm ss o % 60 = ss := by
  unfold civilUnix
  generalize civilDays y m d = D
  omega

theorem oddStart_not_rfc3339 (t : Time) : ¬ isRFC3339Of "10000-01-01T00:00:00+00:00" t := by
  rintro ⟨c, _, hs, _⟩
  have h := congrArg String.length hs
  rw [CivilTime.rfc3339, rfc3339_length] at h
  exact absurd h (by decide)

theorem oddEnd_not_rfc3339 : ¬ isRFC3339Of "2024-03-15T09:00:00+00:00" oddEvent.EndTime := by
  rintro ⟨c, hv, hs, ht⟩
  obtain ⟨-, -, -, -, -, hse, -, ho60⟩ := hv
  have hsec : oddEvent.EndTime.sec = 1710493230 := by decide
  rw [hsec] at ht
  have h30 : c.sec = 30 := by
    have := civilUnix_mod c.year c.month c.day c.hour c.min c.sec c.offset hse ho60
    rw [← ht] at this
    omega
  have h := congrArg String.data hs
  simp [CivilTime.rfc3339, rfc3339, dec2, dec4, h30, digitChar] at h

theorem dateZone_oneChange (loc : Location) (L T : Int) (pre post : ZoneInfo)
    (hL : -9000000000000000000 ≤ L ∧ L ≤ 9000000000000000000)
    (hpre : -86400 < pre.offset ∧ pre.offset < 86400)
    (hpost : -86400 < post.offset ∧ post.offset < 86400)
    (hstop : pre.stop = T) (hstart : post.start = T)
    (hlo : pre.start ≤ L - 86400) (hhi : L + 86400 < post.stop)
    (hlook : ∀ u, L - 86400 ≤ u → u ≤ L + 86400 →
      loc.lookup u = if u < T then pre else post)
    (hex : L - pre.offset < T ∨ T ≤ L - post.offset) :
    ∃ o, (o = pre.offset ∨ o = post.offset) ∧ (loc.lookup (L - o)).offset = o
      ∧ dateZone loc L = L - o := by
  have lpre : ∀ u, L - 86400 ≤ u → u ≤ L + 86400 → u < T → loc.lookup u = pre := by
    intro u h1 h2 h3
    rw [hlook u h1 h2, if_pos h3]
  have lpost : ∀ u, L - 86400 ≤ u → u ≤ L + 86400 → T ≤ u → loc.lookup u = post := by
    intro u h1 h2 h3
    rw [hlook u h1 h2, if_neg (by omega)]
  have ipre : i64 (L - pre.offset) = L - pre.offset := i64_of_range _ (by omega)
  have ipost : i64 (L - post.offset) = L - post.offset := i64_of_range _ (by omega)
  by_cases hLT : L < T
  · have hz : loc.lookup L = pre := lpre L (by omega) (by omega) hLT
    by_cases h0 : pre.offset = 0
    · refine ⟨0, Or.inl h0.symm, ?_, ?_⟩
      · simp [hz, h0]
      · simp [dateZone, hz, h0]
    · have hne : (pre.offset != 0) = true := by simp [h0]
      by_cases hu : L - pre.offset < T
      · refine ⟨pre.offset, Or.inl rfl, ?_, ?_⟩
        · rw [lpre _ (by omega) (by omega) hu]
        · have hc : (decide (L - pre.offset < pre.start) || decide (L - pre.offset ≥ pre.stop))
              = false := by
            simp only [Bool.or_eq_false_iff, decide_eq_false_iff_not]
            constructor <;> omega
          simp only [dateZone, hz, hne, if_true, ipre, hc]
          simp [ipre]
      · have hT : T ≤ L - post.offset := by omega
        refine ⟨post.offset, Or.inr rfl, ?_, ?_⟩
        · rw [lpost _ (by omega) (by omega) hT]
        · have hc : (decide (L - pre.offset < pre.start) || decide (L - pre.offset ≥ pre.stop))
              = true := by
            simp only [Bool.or_eq_true, decide_eq_true_eq]
            right; omega
          have hl2 : loc.lookup (L - pre.offset) = post := lpost _ (by omega) (by omega) (by omega)
          simp only [dateZone, hz, hne, if_true, ipre, hc, hl2, ipost]
  · have hz : loc.lookup L = post := lpost L (by omega) (by omega) (by omega)
    by_cases h0 : post.offset = 0
    · refine ⟨0, Or.inr h0.symm, ?_, ?_⟩
      · simp [hz, h0]
      · simp [dateZone, hz, h0]
    · have hne : (post.offset != 0) = true := by simp [h0]
      by_cases hu : T ≤ L - post.offset
      · refine ⟨post.offset, Or.inr rfl, ?_, ?_⟩
        · rw [lpost _ (by omega) (by omega) hu]
        · have hc : (decide (L - post.offset < post.start) || decide (L - post.offset ≥ post.stop))
              = false := by
            simp only [Bool.or_eq_false_iff, decide_eq_false_iff_not]
            constructor <;> omega
          simp only [dateZone, hz, hne, if_true, ipost, hc]
          simp [ipost]
      · have hT : L - pre.offset < T := by omega
        refine ⟨pre.offset, Or.inl rfl, ?_, ?_⟩
        · rw [lpre _ (by omega) (by omega) hT]
        · have hc : (decide (L - post.offset < post.start) || decide (L - post.offset ≥ post.stop))
              = true := by
            simp only [Bool.or_eq_true, decide_eq_true_eq]
            left; omega
          have hl2 : loc.lookup (L - post.offset) = pre := lpre _ (by omega) (by omega) (by omega)
          simp only [dateZone, hz, hne, if_true, ipost, hc, hl2, ipre]

/-- Go's `time.Date`, on a valid civil date and time of day in a location that
changes its offset at most once in the days around, from the zone `pre` to the
zone `post` at the instant `T`: when the local clock shows that date and time at
some instant, `time.Date` returns such an instant. -/
theorem Date_oneChange (loc : Location) (y m d hh mm ss T : Int) (pre post : ZoneInfo)
    (hy : 0 ≤ y ∧ y ≤ 9999) (hm : 1 ≤ m ∧ m ≤ 12) (hd : 1 ≤ d ∧ d ≤ monthLength y m)
    (hh0 : 0 ≤ hh ∧ hh < 24) (hm0 : 0 ≤ mm ∧ mm < 60) (hs0 : 0 ≤ ss ∧ ss < 60)
    (hpre : -86400 < pre.offset ∧ pre.offset < 86400)
    (hpost : -86400 < post.offset ∧ post.offset < 86400)
    (hstop : pre.stop = T) (hstart : post.start = T)
    (hlo : pre.start ≤ civilUnix y m d hh mm ss 0 - 86400)
    (hhi : civilUnix y m d hh mm ss 0 + 86400 < post.stop)
    (hlook : ∀ u, civilUnix y m d hh mm ss 0 - 86400 ≤ u → u ≤ civilUnix y m d hh mm ss 0 + 86400 →
      loc.lookup u = if u < T then pre else post)
    (hex : ∃ o, (-86400 < o ∧ o < 86400) ∧ (loc.lookup (civilUnix y m d hh mm ss o)).offset = o) :
    ∃ o, (o = pre.offset ∨ o = post.offset)
      ∧ (loc.lookup (civilUnix y m d hh mm ss o)).offset = o
      ∧ Date y m d hh mm ss 0 loc = ⟨civilUnix y m d hh mm ss o, 0, loc⟩ := by
  have n1 : norm y (m - 1) 12 = (y, m - 1) := norm_of_range _ _ _ (by omega)
  have n2 : norm ss 0 1000000000 = (ss, 0) := norm_of_range _ _ _ (by omega)
  have n3 : norm mm ss 60 = (mm, ss) := norm_of_range _ _ _ hs0
  have n4 : norm hh mm 60 = (hh, mm) := norm_of_range _ _ _ hm0
  have n5 : norm d hh 24 = (d, hh) := norm_of_range _ _ _ hh0
  have e1 : m - 1 + 1 = m := by omega
  have hb := civilDays_bounds y m d hy hm hd
  have hL : -9000000000000000000 ≤ civilUnix y m d hh mm ss 0
      ∧ civilUnix y m d hh mm ss 0 ≤ 9000000000000000000 := by
    unfold civilUnix
    omega
  have hex2 : civilUnix y m d hh mm ss 0 - pre.offset < T
      ∨ T ≤ civilUnix y m d hh mm ss 0 - post.offset := by
    obtain ⟨o, ho, hz⟩ := hex
    rw [civilUnix_offset] at hz
    have hl := hlook (civilUnix y m d hh mm ss 0 - o) (by omega) (by omega)
    by_cases hlt : civilUnix y m d hh mm ss 0 - o < T
    · rw [if_pos hlt] at hl
      rw [hl] at hz
      left
      rw [hz]
      exact hlt
    · rw [if_neg hlt] at hl
      rw [hl] at hz
      right
      rw [hz]
      omega
  obtain ⟨o, ho, hz, hdz⟩ := dateZone_oneChange loc _ T pre post hL hpre hpost hstop hstart
    hlo hhi hlook hex2
  refine ⟨o, ho, by rw [civilUnix_offset]; exact hz, ?_⟩
  simp only [Date, n1, n2, n3, n4, n5, e1, dateUnix_civil y m d hh mm ss hy hm hd hh0 hm0 hs0,
    hdz, ← civilUnix_offset]

/-! ## Theorems: the program -/

theorem scanCalendars_eq_find (roomId : String) (items : List CalendarListEntry) :
    scanCalendars roomId items
      = (items.find? fun cal => cal.Summary == roomId).map CalendarListEntry.Id := by
  induction items with
  | nil => rfl
  | cons cal rest ih =>
    by_cases h : (cal.Summary == roomId) = true
    · simp [scanCalendars, List.find?, h]
    · simp [scanCalendars, List.find?, h, ih]

theorem scanCalendars_first (roomId : String) (pre : List CalendarListEntry)
    (cal : CalendarListEntry) (post : List CalendarListEntry)
    (hpre : ∀ x ∈ pre, x.Summary ≠ roomId) (hcal : cal.Summary = roomId) :
    scanCalendars roomId (pre ++ cal :: post) = some cal.Id := by
  induction pre with
  | nil => simp [scanCalendars, hcal]
  | cons x xs ih =>
    have hx : x.Summary ≠ roomId := hpre x (List.mem_cons_self _ _)
    have hxs : ∀ y ∈ xs, y.Summary ≠ roomId := fun y hy => hpre y (List.mem_cons_of_mem _ hy)
    simp [scanCalendars, hx, ih hxs]

theorem scanCalendars_none (roomId : String) (items : List CalendarListEntry)
    (h : ∀ x ∈ items, x.Summary ≠ roomId) : scanCalendars roomId items = none := by
  induction items with
  | nil => rfl
  | cons x xs ih =>
    have hx : x.Summary ≠ roomId := h x (List.mem_cons_self _ _)
    have hxs : ∀ y ∈ xs, y.Summary ≠ roomId := fun y hy => h y (List.mem_cons_of_mem _ hy)
    simp [scanCalendars, hx, ih hxs]

/-- Claim C1: when the calendar-list call succeeds with `items`,
`GetCalendarID` returns what find-first on `items` by `Summary == RoomId`
gives: the `Id` of the first entry, in list order, whose `Summary` equals
`c.RoomId` exactly, with no error; and when no entry has that `Summary`, an
error whose message is "room: <RoomId> does not have an assigned calendar". -/
theorem GetCalendarID_first_match {σ : Type} (env : Env σ) (c : Calendar) (calSvc : Service)
    (w w1 : σ) (items : List CalendarListEntry)
    (hlist : env.CalendarListDo w calSvc "items" = (.ok items, w1)) :
    (GetCalendarID env c calSvc w).result
        = (match items.find? (fun cal => cal.Summary == c.RoomId) with
           | some cal => .ok cal.Id
           | none => .error (.mk ("room: " ++ c.RoomId ++ " does not have an assigned calendar")))
    ∧ (∀ pre cal post, items = pre ++ cal :: post → (∀ x ∈ pre, x.Summary ≠ c.RoomId) →
        cal.Summary = c.RoomId → (GetCalendarID env c calSvc w).result = .ok cal.Id)
    ∧ ((∀ x ∈ items, x.Summary ≠ c.RoomId) →
        ∃ e, (GetCalendarID env c calSvc w).result = .error e
          ∧ e.Error = "room: " ++ c.RoomId ++ " does not have an assigned calendar") := by
  refine ⟨?_, ?_, ?_⟩
  · simp only [GetCalendarID, hlist, scanCalendars_eq_find]
    cases items.find? (fun cal => cal.Summary == c.RoomId) <;> rfl
  · intro pre cal post hitems hpre hcal
    simp only [GetCalendarID, hlist, hitems, scanCalendars_first c.RoomId pre cal post hpre hcal]
  · intro hnone
    refine ⟨.mk ("room: " ++ c.RoomId ++ " does not have an assigned calendar"), ?_, rfl⟩
    simp only [GetCalendarID, hlist, scanCalendars_none c.RoomId items hnone]

/-- Claim C1 at the stub provider: "Room B" resolves to the first of its two
calendars, and "room b" to none. -/
theorem GetCalendarID_first_match_witness :
    stubEnv.CalendarListDo [] ⟨⟨⟨"key", [], ""⟩, ⟨false⟩⟩⟩ "items"
        = (.ok [⟨"id1", "Room A"⟩, ⟨"id2", "Room B"⟩, ⟨"id3", "Room B"⟩], [])
    ∧ (GetCalendarID stubEnv roomB ⟨⟨⟨"key", [], ""⟩, ⟨false⟩⟩⟩ []).result = .ok "id2"
    ∧ ∃ e, (GetCalendarID stubEnv roomZ ⟨⟨⟨"key", [], ""⟩, ⟨false⟩⟩⟩ []).result = .error e
        ∧ e.Error = "room: room b does not have an assigned calendar" :=
  ⟨rfl,
   (GetCalendarID_first_match stubEnv roomB ⟨⟨⟨"key", [], ""⟩, ⟨false⟩⟩⟩ [] [] _ rfl).2.1
     [⟨"id1", "Room A"⟩] ⟨"id2", "Room B"⟩ [⟨"id3", "Room B"⟩] rfl (by decide) rfl,
   (GetCalendarID_first_match stubEnv roomZ ⟨⟨⟨"key", [], ""⟩, ⟨false⟩⟩⟩ [] [] _ rfl).2.2
     (by decide)⟩

theorem GoError.Is_self (e : GoError) : e.Is e = true := by
  cases e <;> simp [GoError.Is]

theorem AuthenticateClient_trace {σ : Type} (env : Env σ) (c : Calendar) (ctx : Context) :
    ∀ call ∈ (AuthenticateClient env c ctx).2, call.isProviderRequest = false := by
  unfold AuthenticateClient
  cases h1 : env.ReadFile c.CredentialsPath with
  | error e => simp [Call.isProviderRequest]
  | ok data =>
    dsimp only
    cases h2 : env.JWTConfigFromJSON data "https://www.googleapis.com/auth/calendar" with
    | error e => simp [Call.isProviderRequest]
    | ok conf =>
      dsimp only
      generalize env.NewService ctx _ = r
      cases r <;> simp [Call.isProviderRequest]

theorem GetCalendarID_trace {σ : Type} (env : Env σ) (c : Calendar) (calSvc : Service) (w : σ) :
    (GetCalendarID env c calSvc w).trace = [.CalendarListList "items"] := by
  unfold GetCalendarID
  split
  · rfl
  · split <;> rfl

/-- Claim C5: if reading the file at `CredentialsPath` fails with `r`, then
`AuthenticateClient`, `GetEvents` and `CreateEvent` each return an error that
wraps `r`, leave the provider's state alone, and their trace holds the file
read only: no service construction, no calendar-list, event-list or
event-insert request. -/
theorem unreadable_credentials_short_circuit {σ : Type} (env : Env σ) (c : Calendar)
    (ctx : Context) (event : Event) (w : σ) (r : GoError)
    (hread : env.ReadFile c.CredentialsPath = .error r) :
    AuthenticateClient env c ctx
        = (.error (.wrap "can't read project key file: " r), [.ReadFile c.CredentialsPath])
    ∧ GetEvents env c ctx w
        = ⟨.error (.wrap "cannot authenticate client: " (.wrap "can't read project key file: " r)),
            w, [.ReadFile c.CredentialsPath]⟩
    ∧ CreateEvent env c ctx event w
        = ⟨.error (.wrap "cannot authenticate client: " (.wrap "can't read project key file: " r)),
            w, [.ReadFile c.CredentialsPath]⟩
    ∧ (GoError.wrap "can't read project key file: " r).Is r = true
    ∧ (GoError.wrap "cannot authenticate client: "
        (.wrap "can't read project key file: " r)).Is r = true
    ∧ ∀ call ∈ [Call.ReadFile c.CredentialsPath], call.isProviderCall = false := by
  have hauth : AuthenticateClient env c ctx
      = (.error (.wrap "can't read project key file: " r), [.ReadFile c.CredentialsPath]) := by
    simp only [AuthenticateClient, hread]
  refine ⟨hauth, ?_, ?_, ?_, ?_, ?_⟩
  · simp only [GetEvents, hauth]
  · simp only [CreateEvent, hauth]
  · simp [GoError.Is, GoError.Is_self]
  · simp [GoError.Is, GoError.Is_self]
  · simp [Call.isProviderCall, Call.isProviderRequest]

/-- Claim C5 at a machine without the credentials file. -/
theorem unreadable_credentials_short_circuit_witness :
    noFileEnv.ReadFile roomB.CredentialsPath
        = .error (.mk "open /etc/key.json: no such file or directory")
    ∧ GetEvents noFileEnv roomB ⟨false⟩ []
        = ⟨.error (.wrap "cannot authenticate client: " (.wrap "can't read project key file: "
            (.mk "open /etc/key.json: no such file or directory"))), [],
            [.ReadFile "/etc/key.json"]⟩ :=
  ⟨rfl,
   (unreadable_credentials_short_circuit noFileEnv roomB ⟨false⟩ standup []
      (.mk "open /etc/key.json: no such file or directory") rfl).2.1⟩

theorem isEventsList_of_not_request (call : Call) (h : call.isProviderRequest = false) :
    call.isEventsList = false := by
  cases call <;> simp_all [Call.isProviderRequest, Call.isEventsList]

theorem isEventsInsert_of_not_request (call : Call) (h : call.isProviderRequest = false) :
    call.isEventsInsert = false := by
  cases call <;> simp_all [Call.isProviderRequest, Call.isEventsInsert]

theorem appendEvent_hasTimes (loc : Location) (events : List Event) (item : CalendarEvent)
    (h : item.hasTimes = true) :
    appendEvent loc events item = some (events ++ [itemEvent loc item]) := by
  unfold CalendarEvent.hasTimes at h
  cases hs : item.Start with
  | none => simp [hs] at h
  | some start =>
    cases he : item.End with
    | none => simp [he] at h
    | some stop => simp [appendEvent, itemEvent, hs, he, dateTimeOf]

theorem eventsLoop_hasTimes (loc : Location) (items : List CalendarEvent) (acc : List Event)
    (h : ∀ item ∈ items, item.hasTimes = true) :
    eventsLoop loc acc items = some (acc ++ items.map (itemEvent loc)) := by
  induction items generalizing acc with
  | nil => simp [eventsLoop]
  | cons item rest ih =>
    have h1 : item.hasTimes = true := h item (List.mem_cons_self _ _)
    have h2 : ∀ x ∈ rest, x.hasTimes = true := fun x hx => h x (List.mem_cons_of_mem _ hx)
    simp [eventsLoop, appendEvent_hasTimes loc acc item h1, ih _ h2]

theorem GetEvents_cases {σ : Type} (env : Env σ) (c : Calendar) (ctx : Context) (w w1 : σ)
    (calSvc : Service) (tr tr1 : List Call) (calID : String)
    (hauth : AuthenticateClient env c ctx = (.ok calSvc, tr))
    (hid : GetCalendarID env c calSvc w = ⟨.ok calID, w1, tr1⟩) :
    GetEvents env c ctx w
      = ⟨(match (env.EventsListDo w1 calSvc calID "items(summary, start, end)"
              ((currentDayBeginning env.Now).Format "2006-01-02T15:04:05-07:00")
              ((currentDayEnding env.Now).Format "2006-01-02T15:04:05-07:00")).1 with
          | .error err => .error (.wrap "unable to retrieve events: " err)
          | .ok items =>
            match eventsLoop env.Local [] items with
            | some events => .ok events
            | none => .panic nilDereference),
         (env.EventsListDo w1 calSvc calID "items(summary, start, end)"
              ((currentDayBeginning env.Now).Format "2006-01-02T15:04:05-07:00")
              ((currentDayEnding env.Now).Format "2006-01-02T15:04:05-07:00")).2,
         tr ++ tr1 ++ [.EventsList calID "items(summary, start, end)"
            ((currentDayBeginning env.Now).Format "2006-01-02T15:04:05-07:00")
            ((currentDayEnding env.Now).Format "2006-01-02T15:04:05-07:00")]⟩ := by
  simp only [GetEvents, hauth, hid]
  rcases h : env.EventsListDo w1 calSvc calID "items(summary, start, end)"
    ((currentDayBeginning env.Now).Format "2006-01-02T15:04:05-07:00")
    ((currentDayEnding env.Now).Format "2006-01-02T15:04:05-07:00") with ⟨r, w2⟩
  cases r with
  | error err => rfl
  | ok items =>
    dsimp only
    cases eventsLoop env.Local [] items <;> rfl

theorem GetEvents_ok {σ : Type} (env : Env σ) (c : Calendar) (ctx : Context) (w w1 w2 : σ)
    (calSvc : Service) (tr tr1 : List Call) (calID : String) (items : List CalendarEvent)
    (hauth : AuthenticateClient env c ctx = (.ok calSvc, tr))
    (hid : GetCalendarID env c calSvc w = ⟨.ok calID, w1, tr1⟩)
    (hlist : env.EventsListDo w1 calSvc calID "items(summary, start, end)"
      ((currentDayBeginning env.Now).Format layoutRFC3339)
      ((currentDayEnding env.Now).Format layoutRFC3339) = (.ok items, w2))
    (hitems : ∀ item ∈ items, item.hasTimes = true) :
    GetEvents env c ctx w
      = ⟨.ok (items.map (itemEvent env.Local)), w2,
          tr ++ tr1 ++ [.EventsList calID "items(summary, start, end)"
            ((currentDayBeginning env.Now).Format layoutRFC3339)
            ((currentDayEnding env.Now).Format layoutRFC3339)]⟩ := by
  simp only [layoutRFC3339] at hlist
  rw [GetEvents_cases env c ctx w w1 calSvc tr tr1 calID hauth hid]
  simp only [hlist, eventsLoop_hasTimes env.Local items [] hitems, List.nil_append,
    layoutRFC3339]

/-- Claim C6, as amended: an error `a` of `AuthenticateClient` comes back from
`GetEvents` wrapped, as an error with message "cannot authenticate client: "
followed by the message of `a` and with `a` as what it unwraps to; an error `r`
of `GetCalendarID` comes back as `r` itself; in both cases there are no events
and no event-list request is issued. -/
theorem GetEvents_propagates_failures {σ : Type} (env : Env σ) (c : Calendar) (ctx : Context)
    (w : σ) :
    (∀ a tr, AuthenticateClient env c ctx = (.error a, tr) →
      GetEvents env c ctx w = ⟨.error (.wrap "cannot authenticate client: " a), w, tr⟩
      ∧ (GoError.wrap "cannot authenticate client: " a).Error
          = "cannot authenticate client: " ++ a.Error
      ∧ (GoError.wrap "cannot authenticate client: " a).Unwrap = some a
      ∧ ∀ call ∈ tr, call.isEventsList = false)
    ∧ (∀ calSvc tr r w1 tr1, AuthenticateClient env c ctx = (.ok calSvc, tr) →
      GetCalendarID env c calSvc w = ⟨.error r, w1, tr1⟩ →
      GetEvents env c ctx w = ⟨.error r, w1, tr ++ tr1⟩
      ∧ ∀ call ∈ tr ++ tr1, call.isEventsList = false) := by
  refine ⟨?_, ?_⟩
  · intro a tr hauth
    refine ⟨by simp only [GetEvents, hauth], rfl, rfl, ?_⟩
    intro call hcall
    apply isEventsList_of_not_request
    have := AuthenticateClient_trace env c ctx call
    rw [hauth] at this
    exact this hcall
  · intro calSvc tr r w1 tr1 hauth hid
    refine ⟨by simp only [GetEvents, hauth, hid], ?_⟩
    intro call hcall
    rcases List.mem_append.1 hcall with h | h
    · apply isEventsList_of_not_request
      have := AuthenticateClient_trace env c ctx call
      rw [hauth] at this
      exact this h
    · have ht := GetCalendarID_trace env c calSvc w
      rw [hid] at ht
      simp only at ht
      subst ht
      simp only [List.mem_singleton] at h
      subst h
      rfl

/-- Claim C6, counterexample: with an unreadable credentials file,
`AuthenticateClient` returns the error "can't read project key file: open
/etc/key.json: no such file or directory" and `GetEvents` returns another
error value, with another message. -/
theorem GetEvents_auth_error_is_wrapped :
    (AuthenticateClient noFileEnv roomB ⟨false⟩).1
        = .error (.wrap "can't read project key file: "
            (.mk "open /etc/key.json: no such file or directory"))
    ∧ (GetEvents noFileEnv roomB ⟨false⟩ []).result
        = .error (.wrap "cannot authenticate client: " (.wrap "can't read project key file: "
            (.mk "open /etc/key.json: no such file or directory")))
    ∧ (GetEvents noFileEnv roomB ⟨false⟩ []).result
        ≠ .error (.wrap "can't read project key file: "
            (.mk "open /etc/key.json: no such file or directory"))
    ∧ (GoError.wrap "cannot authenticate client: " (.wrap "can't read project key file: "
            (.mk "open /etc/key.json: no such file or directory"))).Error
        ≠ (GoError.wrap "can't read project key file: "
            (.mk "open /etc/key.json: no such file or directory")).Error := by
  refine ⟨rfl, rfl, ?_, by decide⟩
  intro h
  have h2 : (GetEvents noFileEnv roomB ⟨false⟩ []).result
      = .error (.wrap "cannot authenticate client: " (.wrap "can't read project key file: "
            (.mk "open /etc/key.json: no such file or directory"))) := rfl
  rw [h2] at h
  injection h with h
  exact absurd h (by decide)

/-- For every list `items` returned by a successful event-list call in which
every item has its start and its end, `GetEvents` returns as many events, in
the same order, with a nil error, and the `k`-th event has the `Summary` of the
`k`-th item as its `Title`. -/
theorem GetEvents_preserves_order {σ : Type} (env : Env σ) (c : Calendar) (ctx : Context)
    (w w1 w2 : σ) (calSvc : Service) (tr tr1 : List Call) (calID : String)
    (items : List CalendarEvent)
    (hauth : AuthenticateClient env c ctx = (.ok calSvc, tr))
    (hid : GetCalendarID env c calSvc w = ⟨.ok calID, w1, tr1⟩)
    (hlist : env.EventsListDo w1 calSvc calID "items(summary, start, end)"
      ((currentDayBeginning env.Now).Format layoutRFC3339)
      ((currentDayEnding env.Now).Format layoutRFC3339) = (.ok items, w2))
    (hitems : ∀ item ∈ items, item.hasTimes = true) :
    ∃ events, (GetEvents env c ctx w).result = .ok events
      ∧ events.length = items.length
      ∧ events.map Event.Title = items.map CalendarEvent.Summary
      ∧ ∀ k item, items.get? k = some item →
          ∃ ev, events.get? k = some ev ∧ ev.Title = item.Summary := by
  refine ⟨items.map (itemEvent env.Local), ?_, by simp, ?_, ?_⟩
  · rw [GetEvents_ok env c ctx w w1 w2 calSvc tr tr1 calID items hauth hid hlist hitems]
  · simp [itemEvent, Function.comp_def]
  · intro k item hk
    refine ⟨itemEvent env.Local item, ?_, rfl⟩
    simp only [List.get?_eq_getElem?] at hk ⊢
    simp [hk]

theorem Parse_empty_layout (loc : Location) :
    (Parse loc "" "2006-01-02T15:04:05-07:00").1 = Time.zero := rfl

/-- For every successful event-list response in which every item has its start
and its end, `GetEvents` returns events and a nil error, whatever the start and
end strings of the items are, and an item whose start (or end) `DateTime` is
empty, as for an all-day event, gives an event whose `StartTime` (or `EndTime`)
is the zero time. -/
theorem GetEvents_swallows_parse_failures {σ : Type} (env : Env σ) (c : Calendar)
    (ctx : Context) (w w1 w2 : σ) (calSvc : Service) (tr tr1 : List Call) (calID : String)
    (items : List CalendarEvent)
    (hauth : AuthenticateClient env c ctx = (.ok calSvc, tr))
    (hid : GetCalendarID env c calSvc w = ⟨.ok calID, w1, tr1⟩)
    (hlist : env.EventsListDo w1 calSvc calID "items(summary, start, end)"
      ((currentDayBeginning env.Now).Format layoutRFC3339)
      ((currentDayEnding env.Now).Format layoutRFC3339) = (.ok items, w2))
    (hitems : ∀ item ∈ items, item.hasTimes = true) :
    ∃ events, (GetEvents env c ctx w).result = .ok events
      ∧ ∀ k item, items.get? k = some item →
          ∃ ev, events.get? k = some ev
            ∧ (∀ start, item.Start = some start → start.DateTime = "" →
                ev.StartTime = Time.zero)
            ∧ (∀ stop, item.End = some stop → stop.DateTime = "" →
                ev.EndTime = Time.zero) := by
  refine ⟨items.map (itemEvent env.Local), ?_, ?_⟩
  · rw [GetEvents_ok env c ctx w w1 w2 calSvc tr tr1 calID items hauth hid hlist hitems]
  · intro k item hk
    refine ⟨itemEvent env.Local item, ?_, ?_, ?_⟩
    · simp only [List.get?_eq_getElem?] at hk ⊢
      simp [hk]
    · intro start hs h
      simp only [itemEvent, hs, dateTimeOf, h]
      exact Parse_empty_layout env.Local
    · intro stop hs h
      simp only [itemEvent, hs, dateTimeOf, h]
      exact Parse_empty_layout env.Local

theorem stubEnv_auth (ctx : Context) :
    AuthenticateClient stubEnv roomB ctx
      = (.ok ⟨⟨⟨"key", ["https://www.googleapis.com/auth/calendar"], ""⟩, ctx⟩⟩,
         [.ReadFile "/etc/key.json",
          .JWTConfigFromJSON "key" "https://www.googleapis.com/auth/calendar",
          .NewService ctx ⟨⟨"key", ["https://www.googleapis.com/auth/calendar"], ""⟩, ctx⟩]) :=
  rfl

theorem stubEnv_calendarID (calSvc : Service) (w : List CalendarEvent) :
    GetCalendarID stubEnv roomB calSvc w = ⟨.ok "id2", w, [.CalendarListList "items"]⟩ := rfl

/-- Claim C7, the code at a list with an item without start: the event-list
call succeeds with two items, "Offsite" and then "Canceled", which has an end
and no start. `GetEvents` does not return two events: it stops with the
run-time error of reading `DateTime` through the nil `Start`, after the
event-list request. With "Standup" in the place of "Canceled" it returns the
two events, in the order of the items. -/
theorem GetEvents_stops_at_item_without_start :
    (stubEnv.EventsListDo [allDayItem, noStartItem]
        ⟨⟨⟨"key", ["https://www.googleapis.com/auth/calendar"], ""⟩, ⟨false⟩⟩⟩ "id2"
        "items(summary, start, end)" "2024-03-15T00:00:00-07:00" "2024-03-15T23:59:59-07:00").1
      = .ok [allDayItem, noStartItem]
    ∧ noStartItem.Start = none
    ∧ (GetEvents stubEnv roomB ⟨false⟩ [allDayItem, noStartItem]).result
        = .panic "runtime error: invalid memory address or nil pointer dereference"
    ∧ (∀ events, (GetEvents stubEnv roomB ⟨false⟩ [allDayItem, noStartItem]).result
        ≠ .ok events)
    ∧ Call.EventsList "id2" "items(summary, start, end)" "2024-03-15T00:00:00-07:00"
        "2024-03-15T23:59:59-07:00"
        ∈ (GetEvents stubEnv roomB ⟨false⟩ [allDayItem, noStartItem]).trace
    ∧ (GetEvents stubEnv roomB ⟨false⟩ [allDayItem, newEvent standup]).result
        = .ok [{ Title := "Offsite", StartTime := Time.zero, EndTime := Time.zero },
               { Title := "Standup", StartTime := Time.zero, EndTime := Time.zero }] := by
  have h : (GetEvents stubEnv roomB ⟨false⟩ [allDayItem, noStartItem]).result
      = .panic "runtime error: invalid memory address or nil pointer dereference" := rfl
  refine ⟨rfl, rfl, h, ?_, by decide, rfl⟩
  intro events he
  rw [h] at he
  cases he

/-- Claim C10, the code at a response with an item without end: the event-list
call succeeds with one item, an all-day one that has a start and no end.
`GetEvents` does not return events and a nil error: it stops with the run-time
error of reading `DateTime` through the nil `End`. For the all-day item
"Offsite", which has both, it returns one event and a nil error, with the zero
time as `StartTime` and `EndTime`. -/
theorem GetEvents_stops_at_item_without_end :
    (stubEnv.EventsListDo [noEndItem]
        ⟨⟨⟨"key", ["https://www.googleapis.com/auth/calendar"], ""⟩, ⟨false⟩⟩⟩ "id2"
        "items(summary, start, end)" "2024-03-15T00:00:00-07:00" "2024-03-15T23:59:59-07:00").1
      = .ok [noEndItem]
    ∧ noEndItem.Start = some ⟨"2024-03-15", "", ""⟩
    ∧ noEndItem.End = none
    ∧ (GetEvents stubEnv roomB ⟨false⟩ [noEndItem]).result
        = .panic "runtime error: invalid memory address or nil pointer dereference"
    ∧ (∀ events, (GetEvents stubEnv roomB ⟨false⟩ [noEndItem]).result ≠ .ok events)
    ∧ allDayItem.Start = some ⟨"2024-03-15", "", ""⟩
    ∧ allDayItem.End = some ⟨"2024-03-16", "", ""⟩
    ∧ (GetEvents stubEnv roomB ⟨false⟩ [allDayItem]).result
        = .ok [{ Title := "Offsite", StartTime := Time.zero, EndTime := Time.zero }] := by
  have h : (GetEvents stubEnv roomB ⟨false⟩ [noEndItem]).result
      = .panic "runtime error: invalid memory address or nil pointer dereference" := rfl
  refine ⟨rfl, rfl, rfl, h, ?_, rfl, rfl, rfl⟩
  intro events he
  rw [h] at he
  cases he

/-- Claim C3, the code at the example of the claim: against the stub provider
that stores and echoes events, `CreateEvent` of "Standup" (2024-03-15, 09:00:00
to 09:15:00 at -07:00) succeeds and stores the two timestamps as written, and
`GetEvents` then returns one event titled "Standup" whose `StartTime` and
`EndTime` are the zero time (Unix second -62135596800), not the instants
1710518400 and 1710519300 of the event created. -/
theorem roundtrip_standup_loses_times :
    (CreateEvent stubEnv roomB ⟨false⟩ standup []).result = .ok ()
    ∧ (CreateEvent stubEnv roomB ⟨false⟩ standup []).state = [newEvent standup]
    ∧ (newEvent standup).Start = some ⟨"", "2024-03-15T09:00:00-07:00", ""⟩
    ∧ (newEvent standup).End = some ⟨"", "2024-03-15T09:15:00-07:00", ""⟩
    ∧ (GetEvents stubEnv roomB ⟨false⟩ (CreateEvent stubEnv roomB ⟨false⟩ standup []).state).result
        = .ok [{ Title := "Standup", StartTime := Time.zero, EndTime := Time.zero }]
    ∧ Time.zero.sec = -62135596800
    ∧ standup.StartTime.sec = 1710518400
    ∧ standup.EndTime.sec = 1710519300 := by
  refine ⟨rfl, rfl, by decide, by decide, rfl, by decide, by decide, by decide⟩

theorem CreateEvent_cases {σ : Type} (env : Env σ) (c : Calendar) (ctx : Context)
    (event : Event) (w w1 : σ) (calSvc : Service) (tr tr1 : List Call) (calID : String)
    (hauth : AuthenticateClient env c ctx = (.ok calSvc, tr))
    (hid : GetCalendarID env c calSvc w = ⟨.ok calID, w1, tr1⟩) :
    CreateEvent env c ctx event w
      = ⟨(match (env.EventsInsertDo w1 calSvc calID (newEvent event)).1 with
          | .error err => .error (.wrap "unable to create event: " err)
          | .ok _ => .ok ()),
         (env.EventsInsertDo w1 calSvc calID (newEvent event)).2,
         tr ++ tr1 ++ [.EventsInsert calID (newEvent event)]⟩ := by
  simp only [CreateEvent, hauth, hid]
  rcases h : env.EventsInsertDo w1 calSvc calID (newEvent event) with ⟨r, w2⟩
  cases r <;> rfl

/-- Claim C4, as amended: let the start and the end of the event be instants
at which the clocks of their zones show readings that RFC 3339 can write down
(years 0 to 9999, offsets of whole minutes). When authentication and calendar
resolution succeed with calendar ID `calID`, `CreateEvent` issues one insert
request against `calID`, after no other insert request, whose payload has
`Summary` equal to the event's `Title`, `Start` and `End` with `DateTime` the
RFC 3339 timestamps with numeric offset of those two readings, and no other
field set; the provider's state after `CreateEvent` is the one this request
leaves, and `CreateEvent` fails, wrapping the error, exactly when the request
does. -/
theorem CreateEvent_insert_payload {σ : Type} (env : Env σ) (c : Calendar) (ctx : Context)
    (event : Event) (w w1 : σ) (calSvc : Service) (tr tr1 : List Call) (calID : String)
    (cs ce : CivilTime)
    (hauth : AuthenticateClient env c ctx = (.ok calSvc, tr))
    (hid : GetCalendarID env c calSvc w = ⟨.ok calID, w1, tr1⟩)
    (hcs : cs.valid) (hce : ce.valid)
    (hs : event.StartTime.shows cs) (he : event.EndTime.shows ce) :
    CreateEvent env c ctx event w
        = ⟨(match (env.EventsInsertDo w1 calSvc calID
                { Summary := event.Title
                  Start := some { Date := "", DateTime := cs.rfc3339, TimeZone := "" }
                  End := some { Date := "", DateTime := ce.rfc3339, TimeZone := "" }
                  Other := [] }).1 with
            | .error err => .error (.wrap "unable to create event: " err)
            | .ok _ => .ok ()),
           (env.EventsInsertDo w1 calSvc calID
                { Summary := event.Title
                  Start := some { Date := "", DateTime := cs.rfc3339, TimeZone := "" }
                  End := some { Date := "", DateTime := ce.rfc3339, TimeZone := "" }
                  Other := [] }).2,
           tr ++ tr1 ++ [.EventsInsert calID
                { Summary := event.Title
                  Start := some { Date := "", DateTime := cs.rfc3339, TimeZone := "" }
                  End := some { Date := "", DateTime := ce.rfc3339, TimeZone := "" }
                  Other := [] }]⟩
    ∧ ∀ call ∈ tr ++ tr1, call.isEventsInsert = false := by
  refine ⟨?_, ?_⟩
  · rw [CreateEvent_cases env c ctx event w w1 calSvc tr tr1 calID hauth hid]
    simp only [newEvent, Format_shows _ cs hcs hs, Format_shows _ ce hce he]
  · intro call hcall
    rcases List.mem_append.1 hcall with h | h
    · apply isEventsInsert_of_not_request
      have := AuthenticateClient_trace env c ctx call
      rw [hauth] at this
      exact this h
    · have ht := GetCalendarID_trace env c calSvc w
      rw [hid] at ht
      simp only at ht
      subst ht
      simp only [List.mem_singleton] at h
      subst h
      rfl

/-- Claim C4, as amended, at the stub provider and the event "Standup": the
request reaches the provider, which stores its payload. -/
theorem CreateEvent_insert_payload_witness :
    (⟨2024, 3, 15, 9, 0, 0, -25200⟩ : CivilTime).valid
    ∧ standup.StartTime.shows ⟨2024, 3, 15, 9, 0, 0, -25200⟩
    ∧ standup.EndTime.shows ⟨2024, 3, 15, 9, 15, 0, -25200⟩
    ∧ CreateEvent stubEnv roomB ⟨false⟩ standup []
        = ⟨.ok (),
           [{ Summary := "Standup"
              Start := some { Date := "", DateTime := "2024-03-15T09:00:00-07:00", TimeZone := "" }
              End := some { Date := "", DateTime := "2024-03-15T09:15:00-07:00", TimeZone := "" }
              Other := [] }],
           [.ReadFile "/etc/key.json",
            .JWTConfigFromJSON "key" "https://www.googleapis.com/auth/calendar",
            .NewService ⟨false⟩
              ⟨⟨"key", ["https://www.googleapis.com/auth/calendar"], ""⟩, ⟨false⟩⟩,
            .CalendarListList "items",
            .EventsInsert "id2"
              { Summary := "Standup"
                Start := some { Date := "", DateTime := "2024-03-15T09:00:00-07:00",
                                TimeZone := "" }
                End := some { Date := "", DateTime := "2024-03-15T09:15:00-07:00",
                              TimeZone := "" }
                Other := [] }]⟩ :=
  ⟨by decide, by decide, by decide,
   (CreateEvent_insert_payload stubEnv roomB ⟨false⟩ standup [] [] _ _ _ "id2"
      ⟨2024, 3, 15, 9, 0, 0, -25200⟩ ⟨2024, 3, 15, 9, 15, 0, -25200⟩
      (stubEnv_auth ⟨false⟩) (stubEnv_calendarID _ _) (by decide) (by decide) (by decide)
      (by decide)).1.trans rfl⟩

/-- Claim C4, counterexample: for an event that starts in the year 10000 and
ends at 2024-03-15 09:00:00 in a zone 30 seconds west of UTC, the payload of the
insert request, which the stub provider stores, has the start
"10000-01-01T00:00:00+00:00", which is no RFC 3339 timestamp (of any instant),
and the end "2024-03-15T09:00:00+00:00", which is no RFC 3339 timestamp of the
end of the event (Unix second 1710493230) but of the instant 30 seconds
before. -/
theorem CreateEvent_payload_not_rfc3339 :
    (CreateEvent stubEnv roomB ⟨false⟩ oddEvent []).state
        = [{ Summary := "Odd"
             Start := some { Date := "", DateTime := "10000-01-01T00:00:00+00:00", TimeZone := "" }
             End := some { Date := "", DateTime := "2024-03-15T09:00:00+00:00", TimeZone := "" }
             Other := [] }]
    ∧ Call.EventsInsert "id2"
          { Summary := "Odd"
            Start := some { Date := "", DateTime := "10000-01-01T00:00:00+00:00", TimeZone := "" }
            End := some { Date := "", DateTime := "2024-03-15T09:00:00+00:00", TimeZone := "" }
            Other := [] } ∈ (CreateEvent stubEnv roomB ⟨false⟩ oddEvent []).trace
    ∧ (∀ t, ¬ isRFC3339Of "10000-01-01T00:00:00+00:00" t)
    ∧ oddEvent.EndTime.sec = 1710493230
    ∧ ¬ isRFC3339Of "2024-03-15T09:00:00+00:00" oddEvent.EndTime
    ∧ "2024-03-15T09:00:00+00:00" = rfc3339 2024 3 15 9 0 0 0
    ∧ civilUnix 2024 3 15 9 0 0 0 = 1710493200 :=
  ⟨by decide, by decide, oddStart_not_rfc3339, by decide, oddEnd_not_rfc3339, by decide,
   by decide⟩

/-- Claim C9: for every event, whatever its title and times, `CreateEvent`
returns an error exactly when authentication fails, or calendar resolution
fails, or the insert call fails; when the insert call fails with `p` the error
returned wraps `p` behind "unable to create event: "; and when `CreateEvent`
succeeds its trace holds exactly one insert request. -/
theorem CreateEvent_error_iff {σ : Type} (env : Env σ) (c : Calendar) (ctx : Context)
    (event : Event) (w : σ) :
    ((∃ e, (CreateEvent env c ctx event w).result = .error e) ↔
      ((∃ a, (AuthenticateClient env c ctx).1 = .error a)
       ∨ (∃ calSvc r, (AuthenticateClient env c ctx).1 = .ok calSvc
            ∧ (GetCalendarID env c calSvc w).result = .error r)
       ∨ (∃ calSvc calID p, (AuthenticateClient env c ctx).1 = .ok calSvc
            ∧ (GetCalendarID env c calSvc w).result = .ok calID
            ∧ (env.EventsInsertDo (GetCalendarID env c calSvc w).state calSvc calID
                (newEvent event)).1 = .error p)))
    ∧ (∀ calSvc calID p, (AuthenticateClient env c ctx).1 = .ok calSvc →
        (GetCalendarID env c calSvc w).result = .ok calID →
        (env.EventsInsertDo (GetCalendarID env c calSvc w).state calSvc calID
          (newEvent event)).1 = .error p →
        (CreateEvent env c ctx event w).result = .error (.wrap "unable to create event: " p)
        ∧ (GoError.wrap "unable to create event: " p).Unwrap = some p)
    ∧ ((CreateEvent env c ctx event w).result = .ok () →
        ((CreateEvent env c ctx event w).trace.filter Call.isEventsInsert).length = 1) := by
  rcases hauth : AuthenticateClient env c ctx with ⟨ra, tr⟩
  cases ra with
  | error a =>
    have hc : CreateEvent env c ctx event w
        = ⟨.error (.wrap "cannot authenticate client: " a), w, tr⟩ := by
      simp only [CreateEvent, hauth]
    rw [hc]
    refine ⟨⟨fun _ => Or.inl ⟨a, rfl⟩, fun _ => ⟨_, rfl⟩⟩, ?_, ?_⟩
    · intro calSvc calID p h
      cases h
    · intro h
      cases h
  | ok calSvc =>
    rcases hid : GetCalendarID env c calSvc w with ⟨ri, w1, tr1⟩
    cases ri with
    | error r =>
      have hc : CreateEvent env c ctx event w = ⟨.error r, w1, tr ++ tr1⟩ := by
        simp only [CreateEvent, hauth, hid]
      rw [hc]
      refine ⟨⟨fun _ => Or.inr (Or.inl ⟨calSvc, r, rfl, ?_⟩), fun _ => ⟨_, rfl⟩⟩, ?_, ?_⟩
      · rw [hid]
      · intro calSvc2 calID p h1 h2
        simp only at h1
        cases h1
        rw [hid] at h2
        cases h2
      · intro h
        cases h
    | ok calID =>
      have hc := CreateEvent_cases env c ctx event w w1 calSvc tr tr1 calID hauth hid
      have htr : ((tr ++ tr1 ++ [Call.EventsInsert calID (newEvent event)]).filter
          Call.isEventsInsert).length = 1 := by
        have h1 : tr.filter Call.isEventsInsert = [] := by
          rw [List.filter_eq_nil_iff]
          intro call hcall
          have := AuthenticateClient_trace env c ctx call
          rw [hauth] at this
          simp [isEventsInsert_of_not_request call (this hcall)]
        have h2 : tr1 = [.CalendarListList "items"] := by
          have ht := GetCalendarID_trace env c calSvc w
          rw [hid] at ht
          exact ht
        simp [List.filter_append, h1, h2, Call.isEventsInsert]
      rw [hc]
      rcases hins : env.EventsInsertDo w1 calSvc calID (newEvent event) with ⟨rp, w2⟩
      cases rp with
      | error p =>
        refine ⟨⟨fun _ => Or.inr (Or.inr ⟨calSvc, calID, p, rfl, ?_, ?_⟩), fun _ => ⟨_, rfl⟩⟩,
          ?_, ?_⟩
        · rw [hid]
        · rw [hid]; simp only [hins]
        · intro calSvc2 calID2 p2 h1 h2 h3
          simp only at h1
          cases h1
          rw [hid] at h2 h3
          simp only at h2 h3
          cases h2
          rw [hins] at h3
          cases h3
          exact ⟨rfl, rfl⟩
        · intro h
          cases h
      | ok ev =>
        refine ⟨⟨?_, ?_⟩, ?_, ?_⟩
        · rintro ⟨e, he⟩
          cases he
        · rintro (⟨a, ha⟩ | ⟨calSvc2, r, h1, h2⟩ | ⟨calSvc2, calID2, p, h1, h2, h3⟩)
          · cases ha
          · simp only at h1
            cases h1
            rw [hid] at h2
            cases h2
          · simp only at h1
            cases h1
            rw [hid] at h2 h3
            simp only at h2 h3
            cases h2
            rw [hins] at h3
            cases h3
        · intro calSvc2 calID2 p2 h1 h2 h3
          simp only at h1
          cases h1
          rw [hid] at h2 h3
          simp only at h2 h3
          cases h2
          rw [hins] at h3
          cases h3
        · intro _
          exact htr

/-- Claim C8, counterexample: called with an already-canceled context against
the stub provider, `GetEvents` returns the provider's events and no error, and
both the calendar-list and the event-list request are in its trace. -/
theorem GetEvents_canceled_context_completes :
    (⟨true⟩ : Context).canceled = true
    ∧ (GetEvents stubEnv roomB ⟨true⟩ [allDayItem]).result
        = .ok [{ Title := "Offsite", StartTime := Time.zero, EndTime := Time.zero }]
    ∧ Call.CalendarListList "items" ∈ (GetEvents stubEnv roomB ⟨true⟩ [allDayItem]).trace
    ∧ Call.EventsList "id2" "items(summary, start, end)" "2024-03-15T00:00:00-07:00"
        "2024-03-15T23:59:59-07:00" ∈ (GetEvents stubEnv roomB ⟨true⟩ [allDayItem]).trace := by
  refine ⟨rfl, rfl, by decide, by decide⟩

/-- Claim C8, as amended: `GetEvents` hands its context to `AuthenticateClient`
only and does not itself observe cancellation. For every context, canceled or
not, under which `AuthenticateClient` yields a service, `GetEvents` issues the
calendar-list request; when calendar resolution fails it returns that error;
when it succeeds `GetEvents` issues the event-list request and returns the
provider's answer to it: the error of the request, wrapped behind "unable to
retrieve events: ", or, when the request succeeds with items that have their
start and end, the events made of the items and no error. -/
theorem GetEvents_context_only_reaches_authentication {σ : Type} (env : Env σ) (c : Calendar)
    (ctx : Context) (w : σ) (calSvc : Service) (tr : List Call)
    (hauth : AuthenticateClient env c ctx = (.ok calSvc, tr)) :
    Call.CalendarListList "items" ∈ (GetEvents env c ctx w).trace
    ∧ (∀ r, (GetCalendarID env c calSvc w).result = .error r →
        GetEvents env c ctx w
          = ⟨.error r, (GetCalendarID env c calSvc w).state,
              tr ++ [.CalendarListList "items"]⟩)
    ∧ (∀ calID, (GetCalendarID env c calSvc w).result = .ok calID →
        (GetEvents env c ctx w).trace
          = tr ++ [.CalendarListList "items"]
              ++ [.EventsList calID "items(summary, start, end)"
                  ((currentDayBeginning env.Now).Format layoutRFC3339)
                  ((currentDayEnding env.Now).Format layoutRFC3339)]
        ∧ (GetEvents env c ctx w).state
          = (env.EventsListDo (GetCalendarID env c calSvc w).state calSvc calID
              "items(summary, start, end)"
              ((currentDayBeginning env.Now).Format layoutRFC3339)
              ((currentDayEnding env.Now).Format layoutRFC3339)).2
        ∧ (∀ err, (env.EventsListDo (GetCalendarID env c calSvc w).state calSvc calID
              "items(summary, start, end)"
              ((currentDayBeginning env.Now).Format layoutRFC3339)
              ((currentDayEnding env.Now).Format layoutRFC3339)).1 = .error err →
            (GetEvents env c ctx w).result
              = .error (.wrap "unable to retrieve events: " err))
        ∧ (∀ items, (env.EventsListDo (GetCalendarID env c calSvc w).state calSvc calID
              "items(summary, start, end)"
              ((currentDayBeginning env.Now).Format layoutRFC3339)
              ((currentDayEnding env.Now).Format layoutRFC3339)).1 = .ok items →
            (∀ item ∈ items, item.hasTimes = true) →
            (GetEvents env c ctx w).result = .ok (items.map (itemEvent env.Local)))) := by
  rcases hid : GetCalendarID env c calSvc w with ⟨ri, w1, tr1⟩
  have htr1 : tr1 = [.CalendarListList "items"] := by
    have ht := GetCalendarID_trace env c calSvc w
    rw [hid] at ht
    exact ht
  subst htr1
  cases ri with
  | error r =>
    have e1 : GetEvents env c ctx w = ⟨.error r, w1, tr ++ [.CalendarListList "items"]⟩ := by
      simp only [GetEvents, hauth, hid]
    rw [e1]
    refine ⟨by simp, ?_, ?_⟩
    · intro r2 h
      cases h
      rfl
    · intro calID h
      cases h
  | ok calID =>
    have e1 := GetEvents_cases env c ctx w w1 calSvc tr _ calID hauth hid
    rw [e1]
    refine ⟨by simp, ?_, ?_⟩
    · intro r h
      cases h
    · intro calID2 h
      cases h
      refine ⟨rfl, rfl, ?_, ?_⟩
      · intro err herr
        simp only [layoutRFC3339] at herr
        simp only [herr]
      · intro items hitems hall
        simp only [layoutRFC3339] at hitems
        simp only [hitems, eventsLoop_hasTimes env.Local items [] hall, List.nil_append]

/-- Claim C8, as amended, at the stub provider and a canceled context, which
the service made by `AuthenticateClient` carries in its token source. -/
theorem GetEvents_context_only_reaches_authentication_witness :
    (⟨true⟩ : Context).canceled = true
    ∧ (AuthenticateClient stubEnv roomB ⟨true⟩).1
        = .ok ⟨⟨⟨"key", ["https://www.googleapis.com/auth/calendar"], ""⟩, ⟨true⟩⟩⟩
    ∧ Call.CalendarListList "items" ∈ (GetEvents stubEnv roomB ⟨true⟩ [allDayItem]).trace
    ∧ (GetEvents stubEnv roomB ⟨true⟩ [allDayItem]).trace
        = [.ReadFile "/etc/key.json",
           .JWTConfigFromJSON "key" "https://www.googleapis.com/auth/calendar",
           .NewService ⟨true⟩ ⟨⟨"key", ["https://www.googleapis.com/auth/calendar"], ""⟩, ⟨true⟩⟩,
           .CalendarListList "items",
           .EventsList "id2" "items(summary, start, end)" "2024-03-15T00:00:00-07:00"
             "2024-03-15T23:59:59-07:00"]
    ∧ (GetEvents stubEnv roomB ⟨true⟩ [allDayItem]).result
        = .ok [{ Title := "Offsite", StartTime := Time.zero, EndTime := Time.zero }] :=
  ⟨rfl, rfl,
   (GetEvents_context_only_reaches_authentication stubEnv roomB ⟨true⟩ [allDayItem]
      _ _ (stubEnv_auth ⟨true⟩)).1,
   ((GetEvents_context_only_reaches_authentication stubEnv roomB ⟨true⟩ [allDayItem]
      _ _ (stubEnv_auth ⟨true⟩)).2.2 "id2" rfl).1.trans (by decide),
   ((GetEvents_context_only_reaches_authentication stubEnv roomB ⟨true⟩ [allDayItem]
      _ _ (stubEnv_auth ⟨true⟩)).2.2 "id2" rfl).2.2.2 [allDayItem] rfl (by decide)⟩

/-- Claim C2, as amended: let the local clock read the valid date `y`-`m`-`d`
(year 0 to 9999) and time `hh`:`mm`:`ss`, in a local zone that changes its
offset at most once in the three days before and after (from the zone `pre` to
the zone `post` at the instant `T`, both with offsets of whole minutes, less
than a day), and let the local clock show 00:00:00 and 23:59:59 of that date at
some instants. When authentication and calendar resolution succeed, `GetEvents`
issues its event-list request with `TimeMin` the RFC 3339 timestamp of
`y`-`m`-`d` 00:00:00 with a numeric offset `o1` at which the local clock shows
that reading, and `TimeMax` that of `y`-`m`-`d` 23:59:59 with such an offset
`o2`; the provider's state after `GetEvents` and the result of `GetEvents` are
those of this request. -/
theorem GetEvents_requests_local_day {σ : Type} (env : Env σ) (c : Calendar) (ctx : Context)
    (w w1 : σ) (calSvc : Service) (tr tr1 : List Call) (calID : String)
    (y m d hh mm ss oN T : Int) (pre post : ZoneInfo)
    (hauth : AuthenticateClient env c ctx = (.ok calSvc, tr))
    (hid : GetCalendarID env c calSvc w = ⟨.ok calID, w1, tr1⟩)
    (hy : 0 ≤ y ∧ y ≤ 9999) (hm : 1 ≤ m ∧ m ≤ 12) (hd : 1 ≤ d ∧ d ≤ monthLength y m)
    (hh0 : 0 ≤ hh ∧ hh < 24) (hm0 : 0 ≤ mm ∧ mm < 60) (hs0 : 0 ≤ ss ∧ ss < 60)
    (hnow : env.NowSec = civilUnix y m d hh mm ss oN)
    (hzN : (env.Local.lookup env.NowSec).offset = oN)
    (hpre : (-86400 < pre.offset ∧ pre.offset < 86400) ∧ pre.offset % 60 = 0)
    (hpost : (-86400 < post.offset ∧ post.offset < 86400) ∧ post.offset % 60 = 0)
    (hT : pre.stop = T ∧ post.start = T)
    (hfar : pre.start ≤ env.NowSec - 259200 ∧ env.NowSec + 259200 < post.stop)
    (hlook : ∀ u, env.NowSec - 259200 ≤ u → u ≤ env.NowSec + 259200 →
      env.Local.lookup u = if u < T then pre else post)
    (hmin : ∃ o, (-86400 < o ∧ o < 86400)
      ∧ (env.Local.lookup (civilUnix y m d 0 0 0 o)).offset = o)
    (hmax : ∃ o, (-86400 < o ∧ o < 86400)
      ∧ (env.Local.lookup (civilUnix y m d 23 59 59 o)).offset = o) :
    ∃ o1 o2, (env.Local.lookup (civilUnix y m d 0 0 0 o1)).offset = o1
      ∧ (env.Local.lookup (civilUnix y m d 23 59 59 o2)).offset = o2
      ∧ (GetEvents env c ctx w).trace
          = tr ++ tr1 ++ [.EventsList calID "items(summary, start, end)"
              (rfc3339 y m d 0 0 0 o1) (rfc3339 y m d 23 59 59 o2)]
      ∧ (GetEvents env c ctx w).state
          = (env.EventsListDo w1 calSvc calID "items(summary, start, end)"
              (rfc3339 y m d 0 0 0 o1) (rfc3339 y m d 23 59 59 o2)).2
      ∧ (∀ err, (env.EventsListDo w1 calSvc calID "items(summary, start, end)"
              (rfc3339 y m d 0 0 0 o1) (rfc3339 y m d 23 59 59 o2)).1 = .error err →
            (GetEvents env c ctx w).result
              = .error (.wrap "unable to retrieve events: " err))
      ∧ (∀ items, (env.EventsListDo w1 calSvc calID "items(summary, start, end)"
              (rfc3339 y m d 0 0 0 o1) (rfc3339 y m d 23 59 59 o2)).1 = .ok items →
            (∀ item ∈ items, item.hasTimes = true) →
            (GetEvents env c ctx w).result = .ok (items.map (itemEvent env.Local))) := by
  have hoN : -86400 < oN ∧ oN < 86400 := by
    have hl := hlook env.NowSec (by omega) (by omega)
    rw [hl] at hzN
    split_ifs at hzN <;> omega
  have hnow2 : env.NowSec = civilUnix y m d 0 0 0 0 + (hh * 3600 + mm * 60 + ss) - oN := by
    rw [hnow, civilUnix_shift]
  have hL1 : civilUnix y m d 23 59 59 0 = civilUnix y m d 0 0 0 0 + 86399 := by
    rw [civilUnix_shift]
    omega
  have hnowabs : env.Now.abs
      = (civilDays y m d + 106751990353932) * 86400 + (hh * 3600 + mm * 60 + ss) := by
    have : env.Now = ⟨civilUnix y m d hh mm ss oN, env.NowNsec, env.Local⟩ := by
      simp only [Env.Now, hnow]
    rw [this]
    exact abs_civil env.Local y m d hh mm ss oN _ hy hm hd hh0 hm0 hs0 (by rw [← hnow]; exact hzN)
  have hdate : absDate env.Now.abs = ⟨y, m, d, daysBeforeMonth y m + (d - 1)⟩ := by
    rw [hnowabs]
    exact absDate_civil y m d _ hy hm hd (by omega)
  obtain ⟨o1, ho1, hz1, hD1⟩ := Date_oneChange env.Local y m d 0 0 0 T pre post hy hm hd
    (by omega) (by omega) (by omega) hpre.1 hpost.1 hT.1 hT.2 (by omega) (by omega)
    (fun u h1 h2 => hlook u (by omega) (by omega)) hmin
  obtain ⟨o2, ho2, hz2, hD2⟩ := Date_oneChange env.Local y m d 23 59 59 T pre post hy hm hd
    (by omega) (by omega) (by omega) hpre.1 hpost.1 hT.1 hT.2 (by omega) (by omega)
    (fun u h1 h2 => hlook u (by omega) (by omega)) hmax
  have hb1 : (-86400 < o1 ∧ o1 < 86400) ∧ o1 % 60 = 0 := by
    rcases ho1 with h | h <;> rw [h]
    · exact hpre
    · exact hpost
  have hb2 : (-86400 < o2 ∧ o2 < 86400) ∧ o2 % 60 = 0 := by
    rcases ho2 with h | h <;> rw [h]
    · exact hpre
    · exact hpost
  have hbeg : currentDayBeginning env.Now = ⟨civilUnix y m d 0 0 0 o1, 0, env.Local⟩ := by
    simp only [currentDayBeginning, Time.Year, Time.Month, Time.Day, Time.Location, hdate]
    exact hD1
  have hend : currentDayEnding env.Now = ⟨civilUnix y m d 23 59 59 o2, 0, env.Local⟩ := by
    simp only [currentDayEnding, Time.Year, Time.Month, Time.Day, Time.Location, hdate]
    exact hD2
  have hcases := GetEvents_cases env c ctx w w1 calSvc tr tr1 calID hauth hid
  rw [hbeg, hend,
    Format_civil env.Local y m d 0 0 0 o1 0 hy hm hd (by omega) (by omega) (by omega)
      hb1.1 hb1.2 hz1,
    Format_civil env.Local y m d 23 59 59 o2 0 hy hm hd (by omega) (by omega) (by omega)
      hb2.1 hb2.2 hz2] at hcases
  refine ⟨o1, o2, hz1, hz2, ?_, ?_, ?_, ?_⟩
  · rw [hcases]
  · rw [hcases]
  · intro err herr
    rw [hcases]
    simp only [herr]
  · intro items hitems hall
    rw [hcases]
    simp only [hitems, eventsLoop_hasTimes env.Local items [] hall, List.nil_append]

/-- Claim C2, as amended, at the clock reading 2024-03-15T10:00:00-07:00 in a
zone of fixed offset, at the clock reading 2024-03-10T12:00:00-06:00 in a zone
that went from -07:00 to -06:00 at 02:00:00 of that day, and at the clock
reading 2024-10-06T12:00:00+11:00 in a zone that went from +10:00 to +11:00 at
02:00:00 of that day. -/
theorem GetEvents_requests_local_day_witness :
    stubEnv.NowSec = civilUnix 2024 3 15 10 0 0 (-25200)
    ∧ (∃ o1 o2, (GetEvents stubEnv roomB ⟨false⟩ []).trace
        = [.ReadFile "/etc/key.json",
           .JWTConfigFromJSON "key" "https://www.googleapis.com/auth/calendar",
           .NewService ⟨false⟩
             ⟨⟨"key", ["https://www.googleapis.com/auth/calendar"], ""⟩, ⟨false⟩⟩]
          ++ [.CalendarListList "items"]
          ++ [.EventsList "id2" "items(summary, start, end)" (rfc3339 2024 3 15 0 0 0 o1)
               (rfc3339 2024 3 15 23 59 59 o2)])
    ∧ (GetEvents stubEnv roomB ⟨false⟩ []).trace
        = [.ReadFile "/etc/key.json",
           .JWTConfigFromJSON "key" "https://www.googleapis.com/auth/calendar",
           .NewService ⟨false⟩
             ⟨⟨"key", ["https://www.googleapis.com/auth/calendar"], ""⟩, ⟨false⟩⟩,
           .CalendarListList "items",
           .EventsList "id2" "items(summary, start, end)" "2024-03-15T00:00:00-07:00"
             "2024-03-15T23:59:59-07:00"]
    ∧ denverEnv.NowSec = civilUnix 2024 3 10 12 0 0 (-21600)
    ∧ (∃ o1 o2, (GetEvents denverEnv roomB ⟨false⟩ []).trace
        = [.ReadFile "/etc/key.json",
           .JWTConfigFromJSON "key" "https://www.googleapis.com/auth/calendar",
           .NewService ⟨false⟩
             ⟨⟨"key", ["https://www.googleapis.com/auth/calendar"], ""⟩, ⟨false⟩⟩]
          ++ [.CalendarListList "items"]
          ++ [.EventsList "id2" "items(summary, start, end)" (rfc3339 2024 3 10 0 0 0 o1)
               (rfc3339 2024 3 10 23 59 59 o2)])
    ∧ (GetEvents denverEnv roomB ⟨false⟩ []).trace
        = [.ReadFile "/etc/key.json",
           .JWTConfigFromJSON "key" "https://www.googleapis.com/auth/calendar",
           .NewService ⟨false⟩
             ⟨⟨"key", ["https://www.googleapis.com/auth/calendar"], ""⟩, ⟨false⟩⟩,
           .CalendarListList "items",
           .EventsList "id2" "items(summary, start, end)" "2024-03-10T00:00:00-07:00"
             "2024-03-10T23:59:59-06:00"]
    ∧ sydneyEnv.NowSec = civilUnix 2024 10 6 12 0 0 39600
    ∧ (∃ o1 o2, (GetEvents sydneyEnv roomB ⟨false⟩ []).trace
        = [.ReadFile "/etc/key.json",
           .JWTConfigFromJSON "key" "https://www.googleapis.com/auth/calendar",
           .NewService ⟨false⟩
             ⟨⟨"key", ["https://www.googleapis.com/auth/calendar"], ""⟩, ⟨false⟩⟩]
          ++ [.CalendarListList "items"]
          ++ [.EventsList "id2" "items(summary, start, end)" (rfc3339 2024 10 6 0 0 0 o1)
               (rfc3339 2024 10 6 23 59 59 o2)])
    ∧ (GetEvents sydneyEnv roomB ⟨false⟩ []).trace
        = [.ReadFile "/etc/key.json",
           .JWTConfigFromJSON "key" "https://www.googleapis.com/auth/calendar",
           .NewService ⟨false⟩
             ⟨⟨"key", ["https://www.googleapis.com/auth/calendar"], ""⟩, ⟨false⟩⟩,
           .CalendarListList "items",
           .EventsList "id2" "items(summary, start, end)" "2024-10-06T00:00:00+10:00"
             "2024-10-06T23:59:59+11:00"] :=
  ⟨by decide,
   (GetEvents_requests_local_day stubEnv roomB ⟨false⟩ [] [] _ _ _ "id2"
      2024 3 15 10 0 0 (-25200) zoneOmega ⟨"", -25200, zoneAlpha, zoneOmega⟩
      ⟨"", -25200, zoneOmega, zoneOmega + 1⟩
      (stubEnv_auth ⟨false⟩) (stubEnv_calendarID _ _) (by decide) (by decide) (by decide)
      (by decide) (by decide) (by decide) (by decide) rfl (by decide) (by decide)
      ⟨rfl, rfl⟩ (by decide)
      (fun u _ h2 => by
        have h3 : u ≤ 1710522000 + 259200 := h2
        have h4 : u < zoneOmega := by unfold zoneOmega; omega
        rw [if_pos h4]
        rfl)
      ⟨-25200, by decide, rfl⟩ ⟨-25200, by decide, rfl⟩).elim
     fun o1 h => h.elim fun o2 h2 => ⟨o1, o2, h2.2.2.1⟩,
   by decide,
   by decide,
   (GetEvents_requests_local_day denverEnv roomB ⟨false⟩ [] [] _ _ _ "id2"
      2024 3 10 12 0 0 (-21600) 1710061200 ⟨"MST", -25200, zoneAlpha, 1710061200⟩
      ⟨"MDT", -21600, 1710061200, zoneOmega⟩
      rfl rfl (by decide) (by decide) (by decide)
      (by decide) (by decide) (by decide) (by decide) rfl (by decide) (by decide)
      ⟨rfl, rfl⟩ (by decide)
      (fun _ _ _ => rfl)
      ⟨-25200, by decide, by decide⟩ ⟨-21600, by decide, by decide⟩).elim
     fun o1 h => h.elim fun o2 h2 => ⟨o1, o2, h2.2.2.1⟩,
   by decide,
   by decide,
   (GetEvents_requests_local_day sydneyEnv roomB ⟨false⟩ [] [] _ _ _ "id2"
      2024 10 6 12 0 0 39600 1728144000 ⟨"AEST", 36000, zoneAlpha, 1728144000⟩
      ⟨"AEDT", 39600, 1728144000, zoneOmega⟩
      rfl rfl (by decide) (by decide) (by decide)
      (by decide) (by decide) (by decide) (by decide) rfl (by decide) (by decide)
      ⟨rfl, rfl⟩ (by decide)
      (fun _ _ _ => rfl)
      ⟨36000, by decide, by decide⟩ ⟨39600, by decide, by decide⟩).elim
     fun o1 h => h.elim fun o2 h2 => ⟨o1, o2, h2.2.2.1⟩,
   by decide⟩

/-- Claim C2, counterexample: in a zone whose offset goes from +02:00 to +03:00
at local midnight of 2024-04-26, with the clock at 2024-04-26T10:00:00+03:00,
the event-list request has `TimeMin` = "2024-04-26T01:00:00+03:00", which is
not 00:00:00 of that date. -/
theorem GetEvents_window_at_midnight_transition :
    cairoEnv.Now.Format layoutRFC3339 = "2024-04-26T10:00:00+03:00"
    ∧ (GetEvents cairoEnv roomB ⟨false⟩ []).trace
      = [.ReadFile "/etc/key.json",
         .JWTConfigFromJSON "key" "https://www.googleapis.com/auth/calendar",
         .NewService ⟨false⟩ ⟨⟨"key", ["https://www.googleapis.com/auth/calendar"], ""⟩, ⟨false⟩⟩,
         .CalendarListList "items",
         .EventsList "id2" "items(summary, start, end)" "2024-04-26T01:00:00+03:00"
           "2024-04-26T23:59:59+03:00"] := by
  refine ⟨by decide, by decide⟩

/-- Claim C6, as amended, at a machine without the credentials file and at a
room without calendar. -/
theorem GetEvents_propagates_failures_witness :
    GetEvents noFileEnv roomB ⟨false⟩ []
        = ⟨.error (.wrap "cannot authenticate client: " (.wrap "can't read project key file: "
            (.mk "open /etc/key.json: no such file or directory"))), [],
            [.ReadFile "/etc/key.json"]⟩
    ∧ GetEvents stubEnv roomZ ⟨false⟩ []
        = ⟨.error (.mk "room: room b does not have an assigned calendar"), [],
            [.ReadFile "/etc/key.json",
             .JWTConfigFromJSON "key" "https://www.googleapis.com/auth/calendar",
             .NewService ⟨false⟩
               ⟨⟨"key", ["https://www.googleapis.com/auth/calendar"], ""⟩, ⟨false⟩⟩]
            ++ [.CalendarListList "items"]⟩ :=
  ⟨((GetEvents_propagates_failures noFileEnv roomB ⟨false⟩ []).1
      (.wrap "can't read project key file: "
        (.mk "open /etc/key.json: no such file or directory"))
      [.ReadFile "/etc/key.json"] rfl).1,
   ((GetEvents_propagates_failures stubEnv roomZ ⟨false⟩ []).2
      ⟨⟨⟨"key", ["https://www.googleapis.com/auth/calendar"], ""⟩, ⟨false⟩⟩⟩
      [.ReadFile "/etc/key.json",
       .JWTConfigFromJSON "key" "https://www.googleapis.com/auth/calendar",
       .NewService ⟨false⟩ ⟨⟨"key", ["https://www.googleapis.com/auth/calendar"], ""⟩, ⟨false⟩⟩]
      (.mk "room: room b does not have an assigned calendar") []
      [.CalendarListList "items"] rfl rfl).1⟩

/-- Claim C9 at an event with an empty title that ends before it starts: it is
inserted, by one request. -/
theorem CreateEvent_error_iff_witness :
    invertedEvent.Title = ""
    ∧ invertedEvent.EndTime.sec < invertedEvent.StartTime.sec
    ∧ (CreateEvent stubEnv roomB ⟨false⟩ invertedEvent []).result = .ok ()
    ∧ ((CreateEvent stubEnv roomB ⟨false⟩ invertedEvent []).trace.filter
        Call.isEventsInsert).length = 1 :=
  ⟨rfl, by decide, rfl, (CreateEvent_error_iff stubEnv roomB ⟨false⟩ invertedEvent []).2.2 rfl⟩

end Gsuite
